import Mathlib

/-!
# Kyambogo voting system: report aggregation and election status resolution

A shallow embedding of

* `getReportSummary` (`controllers/reportController.js`), the handler behind
  `GET /summary`,
* the Elections page (`src/pages/Elections.jsx`): the date-based status computation
  inside `fetchElections`, `calculateStats`, `filterElections`, `openEditModal` and the
  requests sent by `handleCreate`, `handleEdit`, `handleDelete`, `handleStatusChange`, and
* the search for the most voted candidate in `Reports`
  (`src/components/admin/Reports.jsx`),

followed by the properties proved about them.

JavaScript numbers are IEEE-754 binary64 values.  Counts are small naturals and are
exact; the only inexact operations in the handler are the division
`votes / totalUsers` and the multiplication by `100`, both of which round their exact
result to the nearest binary64 value.  That rounding is modelled exactly, on rationals.
-/

namespace Kyambogo

/-! ## Binary64 arithmetic -/

/-- Nearest integer to `s`; a tie goes to the even neighbour (IEEE-754 `roundTiesToEven`
applied to a scaled significand). -/
def roundHalfEven (s : ℚ) : ℤ :=
  let f := ⌊s⌋
  if s - f < 1 / 2 then f
  else if 1 / 2 < s - f then f + 1
  else if f % 2 = 0 then f else f + 1

/-- The binary64 value nearest to the rational `x` (53-bit significand, ties to even).
With `e = ⌊log₂ |x|⌋ - 52` the scaled value `x / 2 ^ e` lies in `[2 ^ 52, 2 ^ 53)` and
is rounded to an integer significand.  The exponent is not bounded: overflow and
subnormals do not arise for quotients and percentages of document counts. -/
def fl (x : ℚ) : ℚ :=
  if x = 0 then 0
  else
    let e : ℤ := Int.log 2 |x| - 52
    (roundHalfEven (x / (2 : ℚ) ^ e) : ℚ) * (2 : ℚ) ^ e

/-- JavaScript `a / b` on two numbers, `b` non-zero: the exact quotient, rounded. -/
def jsDiv (a b : ℚ) : ℚ := fl (a / b)

/-- JavaScript `a * b` on two numbers: the exact product, rounded. -/
def jsMul (a b : ℚ) : ℚ := fl (a * b)

/-- JavaScript `Math.round`: the nearest integer, a tie going towards `+∞`. -/
def mathRound (y : ℚ) : ℤ := ⌊y + 1 / 2⌋

/-! ## Documents and the store -/

/-- Document identifier (`_id`, and the references held in `election` and `user`). -/
abbrev ObjectId := ℕ

/-- Modelled from the spec: the `Election` model (`models/Election`), of which the
handler reads `_id`, `name` and `status`. -/
structure Election where
  _id : ObjectId
  name : String
  status : String
deriving DecidableEq, Repr

/-- Modelled from the spec: the `Vote` model (`models/Vote`): an election reference and
a user reference. -/
structure Vote where
  _id : ObjectId
  election : ObjectId
  user : ObjectId
deriving DecidableEq, Repr

/-- Modelled from the spec: the `User` model (`models/User`): identifier and role. -/
structure User where
  _id : ObjectId
  role : String
deriving DecidableEq, Repr

/-- The queries `getReportSummary` awaits.  Each one either resolves to a value or
rejects with an error carrying a message. -/
structure Store where
  /-- `Election.countDocuments()` -/
  countElections : Except String ℕ
  /-- `Vote.countDocuments()` -/
  countVotes : Except String ℕ
  /-- `User.countDocuments()` -/
  countUsers : Except String ℕ
  /-- `Election.find()` -/
  findElections : Except String (List Election)
  /-- `Vote.countDocuments({ election: id })` -/
  countVotesOf : ObjectId → Except String ℕ
  /-- `Vote.distinct('user')` -/
  distinctVoteUsers : Except String (List ObjectId)

/-- Contents of the three collections. -/
structure Db where
  elections : List Election
  votes : List Vote
  users : List User
deriving Repr

/-- Number of vote records whose election reference is `id`. -/
def Db.votesFor (db : Db) (id : ObjectId) : ℕ :=
  (db.votes.filter fun v => v.election = id).length

/-- The distinct user references occurring in the votes collection. -/
def Db.voters (db : Db) : List ObjectId :=
  (db.votes.map fun v => v.user).dedup

/-- A store that answers every query from an unchanging `Db`, without failure. -/
def Db.toStore (db : Db) : Store where
  countElections := .ok db.elections.length
  countVotes := .ok db.votes.length
  countUsers := .ok db.users.length
  findElections := .ok db.elections
  countVotesOf := fun id => .ok (db.votesFor id)
  distinctVoteUsers := .ok db.voters

/-! ## Values handed to `res.json` and the response object -/

/-- JavaScript values that occur in the response bodies. -/
inductive JsVal where
  | num (n : ℤ)
  | str (s : String)
  | oid (i : ObjectId)
  | arr (items : List JsVal)
  | obj (fields : List (String × JsVal))

/-- Property names of an object, in insertion order (empty for other values). -/
def JsVal.keys : JsVal → List String
  | .obj fields => fields.map Prod.fst
  | _ => []

/-- Property lookup `o[k]`; `none` stands for `undefined`. -/
def JsVal.get (k : String) : JsVal → Option JsVal
  | .obj fields => (fields.find? fun p => p.1 == k).map Prod.snd
  | _ => none

/-- Elements of an array (empty for other values). -/
def JsVal.items : JsVal → List JsVal
  | .arr xs => xs
  | _ => []

/-- The integer held by a number value. -/
def JsVal.asNum : JsVal → Option ℤ
  | .num n => some n
  | _ => none

/-- The Express response object, as far as the handler uses it: the status code that
the next body will be sent with, and the responses sent so far. -/
structure Res where
  statusCode : ℕ
  sent : List (ℕ × JsVal)

/-- A response object on which nothing has been sent yet. -/
def Res.fresh : Res := ⟨200, []⟩

/-- The call `res.status(code)`. -/
def Res.status (res : Res) (code : ℕ) : Res := { res with statusCode := code }

/-- The call `res.json(body)`. -/
def Res.json (res : Res) (body : JsVal) : Res :=
  { res with sent := res.sent ++ [(res.statusCode, body)] }

/-- `Promise.all` over already started computations: every result in order, or the
rejection of a failed one (of the first one in list order when several fail). -/
def promiseAll {α : Type} : List (Except String α) → Except String (List α)
  | [] => .ok []
  | p :: ps =>
    match p with
    | .error e => .error e
    | .ok a =>
      match promiseAll ps with
      | .error e => .error e
      | .ok as => .ok (a :: as)

/-! ## The handler -/

/-- The expression `totalUsers ? Math.round((count / totalUsers) * 100) : 0`, which the
handler evaluates once per election (line 16) and once for the distinct voters
(line 30). -/
def percentOf (count totalUsers : ℕ) : ℤ :=
  if totalUsers ≠ 0 then mathRound (jsMul (jsDiv count totalUsers) 100) else 0

/-- The body of the `try` block of `getReportSummary`: the summary object, or the
message of the error that was thrown. -/
def summaryAttempt (s : Store) : Except String JsVal := do
  let totalElections ← s.countElections
  let totalVotes ← s.countVotes
  let totalUsers ← s.countUsers
  let elections ← s.findElections
  let electionStats ← promiseAll (elections.map fun election => do
    let votes ← s.countVotesOf election._id
    let turnout := percentOf votes totalUsers
    pure (JsVal.obj [
      ("_id", .oid election._id),
      ("name", .str election.name),
      ("status", .str election.status),
      ("votes", .num votes),
      ("turnout", .num turnout)]))
  let voted ← s.distinctVoteUsers
  let notVoted : ℤ := (totalUsers : ℤ) - (voted.length : ℤ)
  let voterTurnout := percentOf voted.length totalUsers
  pure (JsVal.obj [
    ("totalElections", .num totalElections),
    ("totalVotes", .num totalVotes),
    ("totalUsers", .num totalUsers),
    ("voterTurnout", .num voterTurnout),
    ("voted", .num voted.length),
    ("notVoted", .num notVoted),
    ("elections", .arr electionStats)])

/-- The handler `getReportSummary (req, res)`: the `try` block, and the `catch` that
answers 500 with the error message. -/
def getReportSummary (s : Store) (res : Res) : Res :=
  match summaryAttempt s with
  | .ok body => res.json body
  | .error msg =>
    (res.status 500).json
      (.obj [("message", .str "Failed to fetch report summary"), ("error", .str msg)])

/-! ## Reading a response -/

/-- The integer stored under property `k` of an object. -/
def JsVal.numField (k : String) (body : JsVal) : Option ℤ :=
  (body.get k).bind JsVal.asNum

/-- The entries of the `elections` array of a summary body. -/
def JsVal.electionEntries (body : JsVal) : List JsVal :=
  ((body.get "elections").map JsVal.items).getD []

/-- The `turnout` of the `i`-th entry of `elections` in a summary body. -/
def JsVal.turnoutAt (body : JsVal) (i : ℕ) : Option ℤ :=
  (body.electionEntries[i]?).bind (JsVal.numField "turnout")

/-- The `votes` of the `i`-th entry of `elections` in a summary body. -/
def JsVal.votesAt (body : JsVal) (i : ℕ) : Option ℤ :=
  (body.electionEntries[i]?).bind (JsVal.numField "votes")

/-- The sum of the `votes` of the entries of `elections` in a summary body. -/
def JsVal.votesSum (body : JsVal) : ℤ :=
  (body.electionEntries.filterMap (JsVal.numField "votes")).sum

/-- The entry that the handler builds for `election` once its vote count is known. -/
def electionEntry (totalUsers : ℕ) (votes : ℕ) (election : Election) : JsVal :=
  .obj [
    ("_id", .oid election._id),
    ("name", .str election.name),
    ("status", .str election.status),
    ("votes", .num votes),
    ("turnout", .num (percentOf votes totalUsers))]

/-- The summary object that the handler sends when the counts are `n`, `m` and `u`,
`voted` distinct voters were found and `entries` are the per-election entries. -/
def summaryBody (n m u voted : ℕ) (entries : List JsVal) : JsVal :=
  .obj [
    ("totalElections", .num n),
    ("totalVotes", .num m),
    ("totalUsers", .num u),
    ("voterTurnout", .num (percentOf voted u)),
    ("voted", .num voted),
    ("notVoted", .num ((u : ℤ) - (voted : ℤ))),
    ("elections", .arr entries)]

/-- The body of the first response sent on `res`. -/
def Res.body (res : Res) : Option JsVal := res.sent.head?.map Prod.snd

/-- Some query that the handler awaits rejects with message `msg`: one of the three
counts, the election listing, the vote count of a listed election, or the distinct-user
query. -/
def Store.Fails (s : Store) (msg : String) : Prop :=
  s.countElections = .error msg ∨ s.countVotes = .error msg ∨ s.countUsers = .error msg ∨
  s.findElections = .error msg ∨
  (∃ es E, s.findElections = .ok es ∧ E ∈ es ∧ s.countVotesOf E._id = .error msg) ∨
  s.distinctVoteUsers = .error msg

/-! ## The status computation of `fetchElections` (client side) -/

/-- A date property of an election object as received from the API: missing, `null`,
the empty string, or a truthy value together with the time value (milliseconds) that
`new Date(value)` gives it, `none` standing for an invalid date (`NaN`). -/
inductive DateField where
  | undefined
  | null
  | empty
  | value (time : Option ℤ)
deriving DecidableEq, Repr

/-- JavaScript truthiness of a date property. -/
def DateField.truthy : DateField → Bool
  | .value _ => true
  | _ => false

/-- The time value of `new Date(field)`; `none` is `NaN`. -/
def DateField.toDate : DateField → Option ℤ
  | .undefined => none
  | .null => some 0
  | .empty => none
  | .value t => t

/-- `a < b` on the time values of two dates; false when either is `NaN`. -/
def dateLt (a b : Option ℤ) : Bool :=
  match a, b with
  | some x, some y => decide (x < y)
  | _, _ => false

/-- `a <= b` on the time values of two dates; false when either is `NaN`. -/
def dateLe (a b : Option ℤ) : Bool :=
  match a, b with
  | some x, some y => decide (x ≤ y)
  | _, _ => false

/-- An election object as received from `/api/elections`. -/
structure ClientElection where
  _id : ObjectId
  title : String
  description : String
  status : String
  startDate : DateField
  endDate : DateField
deriving DecidableEq, Repr

/-- The value of `actualStatus` computed in `fetchElections` (lines 99-115) for an
election, `now` being the time value of `new Date()`. -/
def actualStatus (now : ℤ) (election : ClientElection) : String :=
  let startDate := election.startDate.toDate
  let endDate := election.endDate.toDate
  if election.startDate.truthy && election.endDate.truthy then
    if dateLt (some now) startDate then "upcoming"
    else if dateLe startDate (some now) && dateLe (some now) endDate then "active"
    else if dateLt endDate (some now) then "completed"
    else election.status
  else election.status

/-- Position of a status in the life cycle `upcoming < active < completed` (3 for any
other value). -/
def statusRank (status : String) : ℕ :=
  if status = "upcoming" then 0 else if status = "active" then 1
  else if status = "completed" then 2 else 3

/-! ## The Elections page: loading, statistics, filtering and editing -/

/-- An election object as the Elections page holds it: the properties of
`ClientElection`, the `positions`, and the two counts that `fetchElections` adds
(`none` is `undefined`). -/
structure ElectionObject extends ClientElection where
  positions : Option (List String)
  candidatesCount : Option ℕ
  votesCount : Option ℕ
deriving DecidableEq, Repr

/-- The responses of the API to the requests of `fetchElections`.  A request either
resolves or rejects with a message; for the candidates and the votes of an election the
response is reduced to `data?.length` (`none` is `undefined`). -/
structure Api where
  /-- `GET /api/elections` -/
  getElections : Except String (List ElectionObject)
  /-- `GET /api/elections/:id/candidates` -/
  getCandidates : ObjectId → Except String (Option ℕ)
  /-- `GET /api/votes/election/:id` -/
  getVotes : ObjectId → Except String (Option ℕ)

/-- The callback that `fetchElections` maps over the fetched elections (lines 78-137):
two requests, the status computation, and the `catch` that returns the election with
default counts.  `now` is the time value of the `new Date()` of this callback. -/
def electionWithCounts (api : Api) (now : ℤ) (election : ElectionObject) : ElectionObject :=
  match api.getCandidates election._id with
  | .error _ => { election with candidatesCount := some 0, votesCount := some 0 }
  | .ok candidates =>
    match api.getVotes election._id with
    | .error _ => { election with candidatesCount := some 0, votesCount := some 0 }
    | .ok votes =>
      { election with
        status := actualStatus now election.toClientElection
        candidatesCount := some (candidates.getD 0)
        votesCount := some (votes.getD 0) }

/-- The `stats` state of the Elections page. -/
structure Stats where
  total : ℕ
  active : ℕ
  upcoming : ℕ
  completed : ℕ
deriving DecidableEq, Repr

/-- The value that `calculateStats` passes to `setStats`. -/
def calculateStats (electionsData : List ElectionObject) : Stats where
  total := electionsData.length
  active := (electionsData.filter fun e => e.status == "active").length
  upcoming := (electionsData.filter fun e => e.status == "upcoming").length
  completed := (electionsData.filter fun e => e.status == "completed").length

/-- The values that `fetchElections` passes to `setElections` and to `setStats`, or the
message of the error caught when the election list cannot be fetched (the state is then
left as it was).  `clock i` is the time value read by the callback of the `i`-th
election. -/
def fetchElections (api : Api) (clock : ℕ → ℤ) : Except String (List ElectionObject × Stats) :=
  match api.getElections with
  | .error msg => .error msg
  | .ok data =>
    let electionsWithCounts := data.mapIdx fun i election =>
      electionWithCounts api (clock i) election
    .ok (electionsWithCounts, calculateStats electionsWithCounts)

/-- The test `s.includes(t)` on strings. -/
def jsIncludes (s t : String) : Bool := decide (t.data <:+: s.data)

/-- An election of the `elections` state as `filterElections` reads it: the properties
of `ElectionObject`, except that `title` and `description` may be missing (`none` is
`undefined`), as the table of the page expects of `description` (line 552). -/
structure ListedElection where
  _id : ObjectId
  title : Option String
  description : Option String
  status : String
  startDate : DateField
  endDate : DateField
  positions : Option (List String)
  candidatesCount : Option ℕ
  votesCount : Option ℕ
deriving DecidableEq, Repr

/-- An election object whose `title` and `description` are both present. -/
def ElectionObject.listed (election : ElectionObject) : ListedElection where
  _id := election._id
  title := some election.title
  description := some election.description
  status := election.status
  startDate := election.startDate
  endDate := election.endDate
  positions := election.positions
  candidatesCount := election.candidatesCount
  votesCount := election.votesCount

/-- The array method `filter` with a callback that may throw: the elements for which the
callback is true, in order, or the error of the first element on which it throws. -/
def filterOrThrow {α : Type} (callback : α → Except String Bool) :
    List α → Except String (List α)
  | [] => .ok []
  | a :: rest =>
    match callback a with
    | .error e => .error e
    | .ok keep =>
      match filterOrThrow callback rest with
      | .error e => .error e
      | .ok kept => .ok (if keep then a :: kept else kept)

/-- The expression `text.toLowerCase().includes(searchTerm.toLowerCase())`, which
throws a `TypeError` when `text` is `undefined`.  `lower` is the string method
`toLowerCase`. -/
def lowerIncludes (lower : String → String) (text : Option String) (searchTerm : String) :
    Except String Bool :=
  match text with
  | none => .error "TypeError: Cannot read properties of undefined (reading toLowerCase)"
  | some s => .ok (jsIncludes (lower s) (lower searchTerm))

/-- The callback of the search filter (lines 166-169): the title test, and the
description test only when the title test is false. -/
def matchesSearch (lower : String → String) (searchTerm : String)
    (election : ListedElection) : Except String Bool := do
  if ← lowerIncludes lower election.title searchTerm then pure true
  else lowerIncludes lower election.description searchTerm

/-- The value that `filterElections` passes to `setFilteredElections`, or the error
thrown before that call.  `lower` is the string method `toLowerCase`. -/
def filterElections (lower : String → String) (elections : List ListedElection)
    (searchTerm statusFilter : String) : Except String (List ListedElection) := do
  let filtered := elections
  let filtered ←
    if searchTerm ≠ "" then filterOrThrow (matchesSearch lower searchTerm) filtered
    else pure filtered
  let filtered :=
    if statusFilter ≠ "all" then filtered.filter fun election => election.status == statusFilter
    else filtered
  pure filtered

/-- The method `toLowerCase` on ASCII text: `A`-`Z` become `a`-`z`. -/
def asciiLower (s : String) : String := ⟨s.data.map Char.toLower⟩

/-- The `formData` state of the create and edit forms. -/
structure FormData where
  title : String
  description : String
  startDate : String
  endDate : String
  status : String
  positions : List String
deriving DecidableEq, Repr

/-- The body of a `PUT /api/elections/:id` request: the form (`handleEdit`) or an
election object (`handleStatusChange`). -/
inductive PutBody where
  | form (formData : FormData)
  | election (election : ElectionObject)
deriving DecidableEq, Repr

/-- The requests that the Elections page sends. -/
inductive Request where
  | getElections
  | getCandidates (id : ObjectId)
  | getVotes (id : ObjectId)
  | post (formData : FormData)
  | put (id : ObjectId) (body : PutBody)
  | delete (id : ObjectId)
deriving DecidableEq, Repr

/-- The `status` property in the body of a request, if the request has one. -/
def Request.status : Request → Option String
  | .post formData => some formData.status
  | .put _ (.form formData) => some formData.status
  | .put _ (.election election) => some election.status
  | _ => none

/-- The requests sent during one run of `fetchElections`, in program order per election:
the votes of an election are requested only after its candidates arrived. -/
def fetchRequests (api : Api) : List Request :=
  .getElections ::
    match api.getElections with
    | .error _ => []
    | .ok data =>
      data.flatMap fun election =>
        .getCandidates election._id ::
          match api.getCandidates election._id with
          | .error _ => []
          | .ok _ => [.getVotes election._id]

/-- The form value of a date property in `openEditModal`:
`date ? new Date(date).toISOString().split('T')[0] : ""`, where `isoDate` gives the
calendar date of a time value and `toISOString` throws on an invalid date. -/
def formDate (isoDate : ℤ → String) : DateField → Except String String
  | .value (some t) => .ok (isoDate t)
  | .value none => .error "RangeError: Invalid time value"
  | _ => .ok ""

/-- The values that `openEditModal (election)` passes to `setSelectedElection` and to
`setFormData`, or the error thrown while the form data is built. -/
def openEditModal (isoDate : ℤ → String) (election : ElectionObject) :
    Except String (ElectionObject × FormData) := do
  let startDate ← formDate isoDate election.startDate
  let endDate ← formDate isoDate election.endDate
  pure (election, {
    title := election.title
    description := election.description
    startDate := startDate
    endDate := endDate
    status := election.status
    positions := election.positions.getD ["President", "Vice President", "Secretary"] })

/-- The request sent by `handleCreate`. -/
def handleCreate (formData : FormData) : Request := .post formData

/-- The request sent by `handleEdit`. -/
def handleEdit (selectedElection : ElectionObject) (formData : FormData) : Request :=
  .put selectedElection._id (.form formData)

/-- The request sent by `handleDelete` once the deletion is confirmed. -/
def handleDelete (election : ElectionObject) : Request := .delete election._id

/-- The request sent by `handleStatusChange (election, newStatus)`. -/
def handleStatusChange (election : ElectionObject) (newStatus : String) : Request :=
  .put election._id (.election { election with status := newStatus })

/-- Both requests for the counts of election `id` succeed. -/
def Api.countsArrive (api : Api) (id : ObjectId) : Bool :=
  (api.getCandidates id).isOk && (api.getVotes id).isOk

/-- The status with which `fetchElections` returns election `E`, resolved at `now`: the
computed status when both count requests succeed, the fetched status otherwise. -/
def resultingStatus (api : Api) (now : ℤ) (E : ElectionObject) : String :=
  if api.countsArrive E._id then actualStatus now E.toClientElection else E.status

/-! ## The Reports page: most voted candidate -/

/-- A candidate entry of a report election: `name` and `votes`. -/
structure Candidate where
  name : String
  votes : ℤ
deriving DecidableEq, Repr

/-- An election of the report summary as `Reports` reads it for the most voted
candidate: its `candidates` array, `none` when the property is missing. -/
structure ReportElection where
  name : String
  candidates : Option (List Candidate)
deriving DecidableEq, Repr

/-- The value of `mostVotedCandidate` computed in `Reports` (lines 126-136) from
`stats.elections` (`none` when that property is missing). -/
def mostVotedCandidate (elections : Option (List ReportElection)) : Candidate :=
  match elections with
  | none => ⟨"-", 0⟩
  | some es =>
    es.foldl (fun best election =>
      (election.candidates.getD []).foldl (fun best c =>
        if c.votes > best.votes then ⟨c.name, c.votes⟩ else best) best) ⟨"-", 0⟩

/-! ## Concrete stores, elections and reports used as examples -/

/-- One election, forty users, twenty-three votes for that election. -/
def db23of40 : Db where
  elections := [⟨1, "Guild President", "active"⟩]
  votes := (List.range 23).map fun i => ⟨i, 1, i⟩
  users := (List.range 40).map fun i => ⟨i, "voter"⟩

/-- One election, two hundred users, twenty-nine votes cast by distinct users. -/
def db29of200 : Db where
  elections := [⟨1, "Guild President", "active"⟩]
  votes := (List.range 29).map fun i => ⟨i, 1, i⟩
  users := (List.range 200).map fun i => ⟨i, "voter"⟩

/-- Ten users and two elections that received three and seven votes. -/
def db3and7 : Db where
  elections := [⟨1, "Guild President", "completed"⟩, ⟨2, "Speaker", "active"⟩]
  votes := (List.range 10).map fun i => ⟨i, if i < 3 then 1 else 2, i⟩
  users := (List.range 10).map fun i => ⟨i, "voter"⟩

/-- One election, eight users, one vote. -/
def db1of8 : Db where
  elections := [⟨1, "Guild President", "active"⟩]
  votes := [⟨0, 1, 0⟩]
  users := (List.range 8).map fun i => ⟨i, "voter"⟩

/-- Two elections and three votes of two users, but an empty users collection. -/
def dbNoUsers : Db where
  elections := [⟨1, "Guild President", "active"⟩, ⟨2, "Speaker", "upcoming"⟩]
  votes := [⟨0, 1, 7⟩, ⟨1, 1, 8⟩, ⟨2, 2, 7⟩]
  users := []

/-- A store whose user count fails after the first two counts succeeded. -/
def failingStore : Store where
  countElections := .ok 2
  countVotes := .ok 10
  countUsers := .error "connection lost"
  findElections := .ok []
  countVotesOf := fun _ => .ok 0
  distinctVoteUsers := .ok []

/-- An election stored as `upcoming` whose dates, 10 to 20, bracket the time 15. -/
def storedUpcoming : ElectionObject :=
  ⟨⟨1, "Guild elections", "Annual vote", "upcoming", .value (some 10), .value (some 20)⟩,
    some ["President"], none, none⟩

/-- A second election, stored as `completed`, with the same dates. -/
def storedCompleted : ElectionObject :=
  ⟨⟨2, "Speaker", "By-election", "completed", .value (some 10), .value (some 20)⟩,
    none, none, none⟩

/-- An API that lists both elections and answers every request. -/
def apiOk : Api where
  getElections := .ok [storedUpcoming, storedCompleted]
  getCandidates := fun _ => .ok (some 3)
  getVotes := fun _ => .ok (some 12)

/-- An API that lists both elections and fails the candidates request of the first. -/
def apiCandidatesFail : Api where
  getElections := .ok [storedUpcoming, storedCompleted]
  getCandidates := fun id => if id = 1 then .error "Network Error" else .ok (some 3)
  getVotes := fun _ => .ok (some 12)

/-- An election with a title and no `description`. -/
def listedNoDescription : ListedElection :=
  ⟨3, some "Guild elections", none, "active", .value (some 10), .value (some 20), none,
    some 3, some 12⟩

/-- Three candidates in two elections, two of them tied at five votes, and an election
without a `candidates` property. -/
def reportTie : List ReportElection :=
  [⟨"Guild President", some [⟨"Alice", 3⟩, ⟨"Bob", 5⟩]⟩, ⟨"Speaker", none⟩,
    ⟨"Treasurer", some [⟨"Carol", 5⟩]⟩]

/-- Two hundred and one users, two hundred and two votes cast by distinct users. -/
def db202of201 : Db where
  elections := [⟨1, "Guild President", "active"⟩]
  votes := (List.range 202).map fun i => ⟨i, 1, i⟩
  users := (List.range 201).map fun i => ⟨i, "voter"⟩

/-! ## Rounding lemmas -/

theorem roundHalfEven_cases (s : ℚ) : roundHalfEven s = ⌊s⌋ ∧ s - ⌊s⌋ ≤ 1 / 2 ∨
    roundHalfEven s = ⌊s⌋ + 1 ∧ 1 / 2 ≤ s - ⌊s⌋ := by
  unfold roundHalfEven
  simp only
  split_ifs with h1 h2 h3
  · exact Or.inl ⟨rfl, h1.le⟩
  · exact Or.inr ⟨rfl, h2.le⟩
  · exact Or.inl ⟨rfl, not_lt.mp h2⟩
  · exact Or.inr ⟨rfl, not_lt.mp h1⟩

theorem abs_roundHalfEven_sub_le (s : ℚ) : |(roundHalfEven s : ℚ) - s| ≤ 1 / 2 := by
  have h1 := Int.floor_le s
  have h2 := Int.lt_floor_add_one s
  rw [abs_le]
  rcases roundHalfEven_cases s with ⟨h, h3⟩ | ⟨h, h3⟩
  · rw [h]; constructor <;> linarith
  · rw [h]; push_cast; constructor <;> linarith

theorem roundHalfEven_le_of_le {s : ℚ} {k : ℤ} (h : s ≤ k) : roundHalfEven s ≤ k := by
  have h1 := abs_le.mp (abs_roundHalfEven_sub_le s)
  have : (roundHalfEven s : ℚ) < k + 1 := by linarith [h1.2]
  have : roundHalfEven s < k + 1 := by exact_mod_cast this
  omega

theorem le_roundHalfEven_of_le {s : ℚ} {k : ℤ} (h : (k : ℚ) ≤ s) : k ≤ roundHalfEven s := by
  have h1 := abs_le.mp (abs_roundHalfEven_sub_le s)
  have : (k : ℚ) - 1 < roundHalfEven s := by linarith [h1.1]
  have : k - 1 < roundHalfEven s := by exact_mod_cast this
  omega

/-- The scaled significand lies in the binade `[2 ^ 52, 2 ^ 53)`. -/
theorem scaled_bracket {x : ℚ} (hx : 0 < x) :
    (2 : ℚ) ^ (52 : ℤ) * 2 ^ (Int.log 2 x - 52) ≤ x ∧ x < 2 ^ (53 : ℤ) * 2 ^ (Int.log 2 x - 52) := by
  have h1 := Int.zpow_log_le_self (b := 2) (r := x) (by norm_num) hx
  have h2 := Int.lt_zpow_succ_log_self (b := 2) (by norm_num) x
  constructor
  · rw [← zpow_add₀ (by norm_num : (2 : ℚ) ≠ 0)]
    simpa using h1
  · rw [← zpow_add₀ (by norm_num : (2 : ℚ) ≠ 0)]
    have : (53 : ℤ) + (Int.log 2 x - 52) = Int.log 2 x + 1 := by ring
    rw [this]; simpa using h2

theorem fl_of_pos {x : ℚ} (hx : 0 < x) :
    fl x = (roundHalfEven (x / (2 : ℚ) ^ (Int.log 2 x - 52)) : ℚ) * (2 : ℚ) ^ (Int.log 2 x - 52) := by
  unfold fl
  rw [if_neg hx.ne', abs_of_pos hx]

theorem abs_fl_sub_le {x : ℚ} (hx : 0 < x) : |fl x - x| ≤ x / 2 ^ 53 := by
  rw [fl_of_pos hx]
  set e := Int.log 2 x - 52 with he
  have hp : (0 : ℚ) < 2 ^ e := zpow_pos (by norm_num) e
  have hb := (scaled_bracket hx).1
  rw [← he] at hb
  have h1 := abs_roundHalfEven_sub_le (x / 2 ^ e)
  have : (roundHalfEven (x / 2 ^ e) : ℚ) * 2 ^ e - x = ((roundHalfEven (x / 2 ^ e) : ℚ) - x / 2 ^ e) * 2 ^ e := by
    field_simp
  rw [this, abs_mul, abs_of_pos hp]
  have h52 : (2 : ℚ) ^ (52 : ℤ) = 2 ^ 52 := by norm_cast
  rw [h52] at hb
  calc |(roundHalfEven (x / 2 ^ e) : ℚ) - x / 2 ^ e| * 2 ^ e ≤ 1 / 2 * 2 ^ e :=
        mul_le_mul_of_nonneg_right h1 hp.le
    _ ≤ x / 2 ^ 53 := by
        rw [le_div_iff₀ (by positivity)]
        nlinarith


theorem fl_zero : fl 0 = 0 := by simp [fl]

theorem fl_nonneg {x : ℚ} (hx : 0 ≤ x) : 0 ≤ fl x := by
  rcases hx.eq_or_lt with h | h
  · rw [← h, fl_zero]
  · rw [fl_of_pos h]
    have hp : (0 : ℚ) < 2 ^ (Int.log 2 x - 52) := zpow_pos (by norm_num) _
    have : (0 : ℤ) ≤ roundHalfEven (x / 2 ^ (Int.log 2 x - 52)) :=
      le_roundHalfEven_of_le (by simpa using (div_pos h hp).le)
    have : (0 : ℚ) ≤ roundHalfEven (x / 2 ^ (Int.log 2 x - 52)) := by exact_mod_cast this
    positivity

/-- Rounding does not step over a value that is an integer multiple of the unit in the
last place. -/
theorem fl_le_of_le {x c : ℚ} (hx : 0 < x) (hc : x ≤ c) (k : ℤ)
    (hk : c = k * 2 ^ (Int.log 2 x - 52)) : fl x ≤ c := by
  rw [fl_of_pos hx, hk]
  have hp : (0 : ℚ) < 2 ^ (Int.log 2 x - 52) := zpow_pos (by norm_num) _
  have : roundHalfEven (x / 2 ^ (Int.log 2 x - 52)) ≤ k := by
    apply roundHalfEven_le_of_le
    rw [div_le_iff₀ hp, ← hk]; exact hc
  have : (roundHalfEven (x / 2 ^ (Int.log 2 x - 52)) : ℚ) ≤ k := by exact_mod_cast this
  exact mul_le_mul_of_nonneg_right this hp.le

theorem fl_le_natCast_mul {x : ℚ} (hx : 0 < x) (c j : ℕ) (hc : x ≤ c) (hj : x < 2 ^ j)
    (hj52 : j ≤ 52) : fl x ≤ c := by
  have hlog : Int.log 2 x < j := by
    have := (Int.lt_zpow_iff_log_lt (b := 2) (by norm_num) hx (x := (j : ℤ))).mp (by simpa using hj)
    exact this
  obtain ⟨n, hn⟩ : ∃ n : ℕ, (n : ℤ) = -(Int.log 2 x - 52) := ⟨(-(Int.log 2 x - 52)).toNat, by omega⟩
  refine fl_le_of_le hx hc ((c : ℤ) * 2 ^ n) ?_
  have : Int.log 2 x - 52 = -(n : ℤ) := by omega
  rw [this, zpow_neg, zpow_natCast]
  push_cast
  field_simp

theorem percentOf_bounds (v u : ℕ) (hu : 0 < u) (hvu : v ≤ u) :
    0 ≤ percentOf v u ∧ percentOf v u ≤ 100 := by
  unfold percentOf mathRound jsMul jsDiv
  rw [if_pos hu.ne']
  have hu' : (0 : ℚ) < u := by exact_mod_cast hu
  have hq0 : (0 : ℚ) ≤ (v : ℚ) / u := by positivity
  have hq1 : (v : ℚ) / u ≤ 1 := by
    rw [div_le_one hu']; exact_mod_cast hvu
  have h1 : 0 ≤ fl ((v : ℚ) / u) := fl_nonneg hq0
  have h2 : fl ((v : ℚ) / u) ≤ 1 := by
    rcases hq0.eq_or_lt with h | h
    · rw [← h, fl_zero]; norm_num
    · have := fl_le_natCast_mul h 1 1 (by simpa using hq1) (by norm_num; linarith) (by norm_num)
      simpa using this
  have h3 : 0 ≤ fl (fl ((v : ℚ) / u) * 100) := fl_nonneg (by positivity)
  have h4 : fl (fl ((v : ℚ) / u) * 100) ≤ 100 := by
    rcases h1.eq_or_lt with h | h
    · rw [← h]; simp [fl_zero]
    · have := fl_le_natCast_mul (x := fl ((v : ℚ) / u) * 100) (by positivity) 100 7
        (by push_cast; linarith) (by norm_num; linarith) (by norm_num)
      simpa using this
  constructor
  · rw [Int.floor_nonneg]; linarith
  · rw [Int.floor_le_iff]; push_cast; linarith


/-- Accumulated rounding error of `(v / u) * 100`. -/
theorem abs_pct_sub_lt (v u : ℕ) (hu : 0 < u) (hv : v < 2 ^ 44) :
    |jsMul (jsDiv v u) 100 - 100 * v / u| < 1 / (2 * u) := by
  unfold jsMul jsDiv
  have hu' : (0 : ℚ) < u := by exact_mod_cast hu
  rcases Nat.eq_zero_or_pos v with h0 | hv0
  · subst h0; simp [fl_zero]; positivity
  have hv' : (0 : ℚ) < v := by exact_mod_cast hv0
  have hvb : (v : ℚ) < 2 ^ 44 := by exact_mod_cast hv
  have hq : (0 : ℚ) < (v : ℚ) / u := by positivity
  have e1 := abs_le.mp (abs_fl_sub_le hq)
  set q := (v : ℚ) / u with hqdef
  set y1 := fl q with hy1
  have hy1pos : 0 < y1 := by
    have : q / 2 ^ 53 < q := by
      rw [div_lt_iff₀ (by positivity)]; nlinarith
    linarith [e1.1]
  have e2 := abs_le.mp (abs_fl_sub_le (x := y1 * 100) (by positivity))
  set y2 := fl (y1 * 100) with hy2
  have hqe : 100 * (v : ℚ) / u = 100 * q := by rw [hqdef]; ring
  rw [hqe, abs_lt]
  have hkey : 250 * q / 2 ^ 53 < 1 / (2 * u) := by
    rw [hqdef, div_lt_div_iff₀ (by positivity) (by positivity)]
    have : 250 * ((v : ℚ) / u) * (2 * u) = 500 * v := by field_simp; ring
    rw [this]
    have h2 : (2 : ℚ) ^ 53 = 512 * 2 ^ 44 := by norm_num
    rw [h2]; linarith
  have hq53 : q / 2 ^ 53 ≤ q := by
    rw [div_le_iff₀ (by positivity)]; nlinarith
  have e1a := e1.1
  have e1b := e1.2
  have e2a := e2.1
  have e2b := e2.2
  have hq53' : q / 2 ^ 53 ≤ q / 2 := by
    rw [div_le_div_iff₀ (by positivity) (by positivity)]
    have : (2 : ℚ) ≤ 2 ^ 53 := by norm_num
    nlinarith
  have hy1le : y1 ≤ 3 / 2 * q := by linarith
  have h3 : y1 * 100 / 2 ^ 53 ≤ 150 * q / 2 ^ 53 := by
    apply div_le_div_of_nonneg_right _ (by positivity)
    linarith
  have h4 : 250 * q / 2 ^ 53 = 5 / 2 * (100 * (q / 2 ^ 53)) := by ring
  have h5 : 150 * q / 2 ^ 53 = 3 / 2 * (100 * (q / 2 ^ 53)) := by ring
  have h6 : 0 < 100 * (q / 2 ^ 53) := by positivity
  constructor <;> linarith

theorem percentOf_nearest (v u : ℕ) (hu : 0 < u) (hv : v < 2 ^ 44) :
    |(percentOf v u : ℚ) - 100 * v / u| ≤ 1 / 2 := by
  have herr := abs_lt.mp (abs_pct_sub_lt v u hu hv)
  unfold percentOf mathRound
  rw [if_pos hu.ne']
  set y := jsMul (jsDiv v u) 100 with hy
  set r : ℤ := ⌊y + 1 / 2⌋ with hr
  have hu' : (0 : ℚ) < u := by exact_mod_cast hu
  have f1 : (r : ℚ) ≤ y + 1 / 2 := Int.floor_le _
  have f2 : y + 1 / 2 < r + 1 := Int.lt_floor_add_one _
  have hinv : 1 / (2 * (u : ℚ)) * (2 * u) = 1 := by field_simp
  have hq : 100 * (v : ℚ) / u * (2 * u) = 200 * v := by field_simp; ring
  -- scale by 2u to integers
  have g1 : (2 * (u : ℤ) * r - 200 * v : ℤ) < u + 1 := by
    have : (2 * (u : ℚ) * r - 200 * v) < u + 1 := by
      have : ((r : ℚ) - 100 * v / u) * (2 * u) < (1 / 2 + 1 / (2 * u)) * (2 * u) := by
        apply mul_lt_mul_of_pos_right _ (by positivity)
        linarith [herr.2]
      have e : ((r : ℚ) - 100 * v / u) * (2 * u) = 2 * u * r - 200 * v := by
        rw [sub_mul, hq]; ring
      have e2 : (1 / 2 + 1 / (2 * (u : ℚ))) * (2 * u) = u + 1 := by
        rw [add_mul, hinv]; ring
      linarith
    exact_mod_cast this
  have g2 : -((u : ℤ) + 1) < (2 * (u : ℤ) * r - 200 * v : ℤ) := by
    have : -((u : ℚ) + 1) < (2 * (u : ℚ) * r - 200 * v) := by
      have : -(1 / 2 + 1 / (2 * u)) * (2 * u) < ((r : ℚ) - 100 * v / u) * (2 * (u : ℚ)) := by
        apply mul_lt_mul_of_pos_right _ (by positivity)
        linarith [herr.1]
      have e : ((r : ℚ) - 100 * v / u) * (2 * u) = 2 * u * r - 200 * v := by
        rw [sub_mul, hq]; ring
      have e2 : -(1 / 2 + 1 / (2 * (u : ℚ))) * (2 * u) = -(u + 1) := by
        rw [neg_mul, add_mul, hinv]; ring
      linarith
    exact_mod_cast this
  have g1' : (2 * (u : ℚ) * r - 200 * v) ≤ u := by
    have : (2 * (u : ℤ) * r - 200 * v : ℤ) ≤ u := by omega
    exact_mod_cast this
  have g2' : -(u : ℚ) ≤ (2 * (u : ℚ) * r - 200 * v) := by
    have : -(u : ℤ) ≤ (2 * (u : ℤ) * r - 200 * v : ℤ) := by omega
    exact_mod_cast this
  rw [abs_le]
  have key : (r : ℚ) - 100 * v / u = (2 * u * r - 200 * v) / (2 * u) := by
    field_simp; ring
  rw [key]
  constructor
  · rw [le_div_iff₀ (by positivity)]; linarith
  · rw [div_le_iff₀ (by positivity)]; linarith


theorem percentOf_eq_floor (v u : ℕ) (hu : 0 < u) (hv : v < 2 ^ 44)
    (hne : (200 * v) % (2 * u) ≠ u) : percentOf v u = ⌊100 * (v : ℚ) / u + 1 / 2⌋ := by
  have h := abs_le.mp (percentOf_nearest v u hu hv)
  have hu' : (0 : ℚ) < u := by exact_mod_cast hu
  symm
  rw [Int.floor_eq_iff]
  refine ⟨by linarith [h.2], ?_⟩
  rcases h.1.eq_or_lt with heq | hlt
  · exfalso
    apply hne
    have e1 : (200 * (v : ℚ)) = 2 * u * (percentOf v u : ℚ) + u := by
      have : 100 * (v : ℚ) / u = percentOf v u + 1 / 2 := by linarith
      field_simp at this
      linarith
    have e2 : (200 * (v : ℤ)) = 2 * u * percentOf v u + u := by exact_mod_cast e1
    have hr : 0 ≤ percentOf v u := by
      by_contra hneg
      push_neg at hneg
      have : 2 * (u : ℤ) * percentOf v u ≤ 2 * (u : ℤ) * (-1) := by
        apply mul_le_mul_of_nonneg_left (by omega) (by positivity)
      omega
    obtain ⟨r, hr⟩ := Int.eq_ofNat_of_zero_le hr
    rw [hr] at e2
    have e3 : 200 * v = 2 * u * r + u := by exact_mod_cast e2
    rw [e3, Nat.mul_add_mod]
    exact Nat.mod_eq_of_lt (by omega)
  · linarith

/-- Evaluation certificate for `fl`: the exponent and the significand determine it. -/
theorem fl_eq_of_bracket {x : ℚ} (e m : ℤ) (h1 : (2 : ℚ) ^ (52 : ℕ) * 2 ^ e ≤ x)
    (h2 : x < (2 : ℚ) ^ (53 : ℕ) * 2 ^ e) (h3 : |x / 2 ^ e - m| < 1 / 2) :
    fl x = m * 2 ^ e := by
  have hp : (0 : ℚ) < 2 ^ e := zpow_pos (by norm_num) e
  have hx : 0 < x := lt_of_lt_of_le (by positivity) h1
  have c52 : (2 : ℚ) ^ (52 : ℤ) = 2 ^ (52 : ℕ) := by norm_cast
  have c53 : (2 : ℚ) ^ (53 : ℤ) = 2 ^ (53 : ℕ) := by norm_cast
  have hlog : Int.log 2 x = e + 52 := by
    apply le_antisymm
    · have : Int.log 2 x < e + 53 := by
        rw [← Int.lt_zpow_iff_log_lt (by norm_num) hx]
        have e53 : (2 : ℚ) ^ (e + 53) = 2 ^ (53 : ℕ) * 2 ^ e := by
          rw [zpow_add₀ (by norm_num), mul_comm, c53]
        push_cast
        rw [e53]; exact h2
      omega
    · rw [← Int.zpow_le_iff_le_log (by norm_num) hx]
      have e52 : (2 : ℚ) ^ (e + 52) = 2 ^ (52 : ℕ) * 2 ^ e := by
        rw [zpow_add₀ (by norm_num), mul_comm, c52]
      push_cast
      rw [e52]; exact h1
  rw [fl_of_pos hx, hlog]
  have he : e + 52 - 52 = e := by ring
  rw [he]
  congr 2
  have h3' := abs_lt.mp h3
  have h4 := abs_le.mp (abs_roundHalfEven_sub_le (x / 2 ^ e))
  have a1 : (roundHalfEven (x / 2 ^ e) : ℚ) < m + 1 := by linarith [h4.2, h3'.2]
  have a2 : (m : ℚ) - 1 < roundHalfEven (x / 2 ^ e) := by linarith [h4.1, h3'.1]
  have a1' : roundHalfEven (x / 2 ^ e) < m + 1 := by exact_mod_cast a1
  have a2' : m - 1 < roundHalfEven (x / 2 ^ e) := by exact_mod_cast a2
  omega

theorem percentOf_23_40 : percentOf 23 40 = 57 := by
  have h1 : fl ((23 : ℚ) / 40) = 5179139571476070 * 2 ^ (-53 : ℤ) := by
    have := fl_eq_of_bracket (x := (23 : ℚ) / 40) (-53) 5179139571476070
      (by norm_num [zpow_neg]) (by norm_num [zpow_neg]) (by norm_num [zpow_neg, abs_lt])
    exact_mod_cast this
  have h2 : fl (5179139571476070 * 2 ^ (-53 : ℤ) * 100) = 8092405580431359 * 2 ^ (-47 : ℤ) := by
    have := fl_eq_of_bracket (x := (5179139571476070 : ℚ) * 2 ^ (-53 : ℤ) * 100) (-47)
      8092405580431359
      (by norm_num [zpow_neg]) (by norm_num [zpow_neg]) (by norm_num [zpow_neg, abs_lt])
    exact_mod_cast this
  unfold percentOf mathRound jsMul jsDiv
  rw [if_pos (by norm_num)]
  have e : ((23 : ℕ) : ℚ) / ((40 : ℕ) : ℚ) = (23 : ℚ) / 40 := by norm_num
  rw [e, h1, h2, Int.floor_eq_iff]
  norm_num [zpow_neg]


theorem percentOf_29_200 : percentOf 29 200 = 14 := by
  have h1 : fl ((29 : ℚ) / 200) = 5224175567749775 * 2 ^ (-55 : ℤ) := by
    have := fl_eq_of_bracket (x := (29 : ℚ) / 200) (-55) 5224175567749775
      (by norm_num [zpow_neg]) (by norm_num [zpow_neg]) (by norm_num [zpow_neg, abs_lt])
    exact_mod_cast this
  have h2 : fl (5224175567749775 * 2 ^ (-55 : ℤ) * 100) = 8162774324609023 * 2 ^ (-49 : ℤ) := by
    have := fl_eq_of_bracket (x := (5224175567749775 : ℚ) * 2 ^ (-55 : ℤ) * 100) (-49)
      8162774324609023
      (by norm_num [zpow_neg]) (by norm_num [zpow_neg]) (by norm_num [zpow_neg, abs_lt])
    exact_mod_cast this
  unfold percentOf mathRound jsMul jsDiv
  rw [if_pos (by norm_num)]
  have e : ((29 : ℕ) : ℚ) / ((200 : ℕ) : ℚ) = (29 : ℚ) / 200 := by norm_num
  rw [e, h1, h2, Int.floor_eq_iff]
  norm_num [zpow_neg]

theorem percentOf_1_8 : percentOf 1 8 = 13 := by
  have h1 : fl ((1 : ℚ) / 8) = 4503599627370496 * 2 ^ (-55 : ℤ) := by
    have := fl_eq_of_bracket (x := (1 : ℚ) / 8) (-55) 4503599627370496
      (by norm_num [zpow_neg]) (by norm_num [zpow_neg]) (by norm_num [zpow_neg, abs_lt])
    exact_mod_cast this
  have h2 : fl (4503599627370496 * 2 ^ (-55 : ℤ) * 100) = 7036874417766400 * 2 ^ (-49 : ℤ) := by
    have := fl_eq_of_bracket (x := (4503599627370496 : ℚ) * 2 ^ (-55 : ℤ) * 100) (-49)
      7036874417766400
      (by norm_num [zpow_neg]) (by norm_num [zpow_neg]) (by norm_num [zpow_neg, abs_lt])
    exact_mod_cast this
  unfold percentOf mathRound jsMul jsDiv
  rw [if_pos (by norm_num)]
  have e : ((1 : ℕ) : ℚ) / ((8 : ℕ) : ℚ) = (1 : ℚ) / 8 := by norm_num
  rw [e, h1, h2, Int.floor_eq_iff]
  norm_num [zpow_neg]

theorem percentOf_zero_users (count : ℕ) : percentOf count 0 = 0 := by
  simp [percentOf]

/-! ## The handler on a store -/

theorem promiseAll_map_ok {α β : Type} (f : α → β) (l : List α) :
    promiseAll (l.map fun a => (Except.ok (f a) : Except String β)) = .ok (l.map f) := by
  induction l with
  | nil => rfl
  | cons a l ih => simp [promiseAll, ih]

/-- When every per-election count of the listed elections succeeds, so does
`Promise.all`, with one entry per election in order. -/
theorem promiseAll_entries_ok (s : Store) (totalUsers : ℕ) (c : ObjectId → ℕ)
    (es : List Election) (h : ∀ E ∈ es, s.countVotesOf E._id = .ok (c E._id)) :
    promiseAll (es.map fun election => do
      let votes ← s.countVotesOf election._id
      let turnout := percentOf votes totalUsers
      pure (JsVal.obj [
        ("_id", .oid election._id),
        ("name", .str election.name),
        ("status", .str election.status),
        ("votes", .num votes),
        ("turnout", .num turnout)]))
      = .ok (es.map fun E => electionEntry totalUsers (c E._id) E) := by
  induction es with
  | nil => rfl
  | cons E es ih =>
    have hE := h E (List.mem_cons_self _ _)
    have ih2 := ih fun E2 hE2 => h E2 (List.mem_cons_of_mem _ hE2)
    simp only [List.map_cons, promiseAll, hE, ih2]
    rfl

/-- The summary object built from successful query results. -/
theorem summaryAttempt_ok (s : Store) (n m u : ℕ) (es : List Election) (c : ObjectId → ℕ)
    (vs : List ObjectId) (h1 : s.countElections = .ok n) (h2 : s.countVotes = .ok m)
    (h3 : s.countUsers = .ok u) (h4 : s.findElections = .ok es)
    (h5 : ∀ E ∈ es, s.countVotesOf E._id = .ok (c E._id))
    (h6 : s.distinctVoteUsers = .ok vs) :
    summaryAttempt s = .ok (summaryBody n m u vs.length
      (es.map fun E => electionEntry u (c E._id) E)) := by
  unfold summaryAttempt
  simp only [h1, h2, h3, h4, h6, bind, Except.bind]
  have := promiseAll_entries_ok s u c es h5
  simp only [bind, Except.bind] at this
  rw [this]
  rfl

theorem summaryAttempt_toStore (db : Db) :
    summaryAttempt db.toStore = .ok (summaryBody db.elections.length db.votes.length
      db.users.length db.voters.length
      (db.elections.map fun E => electionEntry db.users.length (db.votesFor E._id) E)) :=
  summaryAttempt_ok db.toStore _ _ _ _ db.votesFor _ rfl rfl rfl rfl (fun _ _ => rfl) rfl

theorem getReportSummary_toStore (db : Db) :
    getReportSummary db.toStore Res.fresh = ⟨200, [(200, summaryBody db.elections.length
      db.votes.length db.users.length db.voters.length
      (db.elections.map fun E => electionEntry db.users.length (db.votesFor E._id) E))]⟩ := by
  unfold getReportSummary
  rw [summaryAttempt_toStore]
  rfl

theorem body_toStore (db : Db) :
    (getReportSummary db.toStore Res.fresh).body = some (summaryBody db.elections.length
      db.votes.length db.users.length db.voters.length
      (db.elections.map fun E => electionEntry db.users.length (db.votesFor E._id) E)) := by
  rw [getReportSummary_toStore]; rfl

theorem electionEntries_summaryBody (n m u voted : ℕ) (entries : List JsVal) :
    (summaryBody n m u voted entries).electionEntries = entries := by
  simp [summaryBody, JsVal.electionEntries, JsVal.get, JsVal.items, List.find?]

theorem numField_summaryBody (n m u voted : ℕ) (entries : List JsVal) :
    (summaryBody n m u voted entries).numField "totalElections" = some (n : ℤ) ∧
    (summaryBody n m u voted entries).numField "totalVotes" = some (m : ℤ) ∧
    (summaryBody n m u voted entries).numField "totalUsers" = some (u : ℤ) ∧
    (summaryBody n m u voted entries).numField "voterTurnout" = some (percentOf voted u) ∧
    (summaryBody n m u voted entries).numField "voted" = some (voted : ℤ) ∧
    (summaryBody n m u voted entries).numField "notVoted" = some ((u : ℤ) - (voted : ℤ)) := by
  simp [summaryBody, JsVal.numField, JsVal.get, JsVal.asNum, List.find?]

theorem turnoutAt_summaryBody (n m u voted : ℕ) (c : ObjectId → ℕ) (es : List Election)
    (i : ℕ) :
    (summaryBody n m u voted (es.map fun E => electionEntry u (c E._id) E)).turnoutAt i =
      (es[i]?).map fun E => percentOf (c E._id) u := by
  rw [JsVal.turnoutAt, electionEntries_summaryBody, List.getElem?_map]
  cases es[i]? <;>
    simp [electionEntry, JsVal.numField, JsVal.get, JsVal.asNum, List.find?]

theorem votesAt_summaryBody (n m u voted : ℕ) (c : ObjectId → ℕ) (es : List Election)
    (i : ℕ) :
    (summaryBody n m u voted (es.map fun E => electionEntry u (c E._id) E)).votesAt i =
      (es[i]?).map fun E => (c E._id : ℤ) := by
  rw [JsVal.votesAt, electionEntries_summaryBody, List.getElem?_map]
  cases es[i]? <;>
    simp [electionEntry, JsVal.numField, JsVal.get, JsVal.asNum, List.find?]

theorem voters_length (db : Db) :
    db.voters.length = ((db.votes.map fun v => v.user).toFinset).card := by
  rw [Db.voters, List.card_toFinset]

theorem votesFor_eq_countP (db : Db) (id : ObjectId) :
    db.votesFor id = db.votes.countP fun v => v.election = id := by
  rw [Db.votesFor, List.countP_eq_length_filter]

/-- The per-election counts either all succeed, or `Promise.all` rejects with the
message of a failing one. -/
theorem promiseAll_entries_cases (s : Store) (totalUsers : ℕ) (es : List Election) :
    (∀ E ∈ es, ∃ v, s.countVotesOf E._id = .ok v) ∨
    ∃ E ∈ es, ∃ msg, s.countVotesOf E._id = .error msg ∧
      promiseAll (es.map fun election => do
        let votes ← s.countVotesOf election._id
        let turnout := percentOf votes totalUsers
        pure (JsVal.obj [
          ("_id", .oid election._id),
          ("name", .str election.name),
          ("status", .str election.status),
          ("votes", .num votes),
          ("turnout", .num turnout)])) = .error msg := by
  induction es with
  | nil => left; simp
  | cons E es ih =>
    cases hE : s.countVotesOf E._id with
    | error msg =>
      right
      refine ⟨E, List.mem_cons_self _ _, msg, hE, ?_⟩
      simp only [List.map_cons, promiseAll, hE, bind, Except.bind]
    | ok v =>
      rcases ih with hall | ⟨E2, hmem, msg, herr, hp⟩
      · left
        intro E3 h3
        rcases List.mem_cons.mp h3 with rfl | h3
        · exact ⟨v, hE⟩
        · exact hall E3 h3
      · right
        refine ⟨E2, List.mem_cons_of_mem _ hmem, msg, herr, ?_⟩
        simp only [List.map_cons, promiseAll, hE, bind, Except.bind, pure, Except.pure]
        simp only [bind, Except.bind, pure, Except.pure] at hp
        rw [hp]

/-- Every run of the `try` block either finds all queries successful, or throws the
message of a failing query. -/
theorem summaryAttempt_cases (s : Store) :
    (∃ (n m u : ℕ) (es : List Election) (c : ObjectId → ℕ) (vs : List ObjectId),
      s.countElections = .ok n ∧ s.countVotes = .ok m ∧
      s.countUsers = .ok u ∧ s.findElections = .ok es ∧
      (∀ E ∈ es, s.countVotesOf E._id = .ok (c E._id)) ∧ s.distinctVoteUsers = .ok vs) ∨
    ∃ msg, s.Fails msg ∧ summaryAttempt s = .error msg := by
  cases h1 : s.countElections with
  | error msg =>
    right; exact ⟨msg, Or.inl h1, by simp [summaryAttempt, h1, bind, Except.bind]⟩
  | ok n =>
  cases h2 : s.countVotes with
  | error msg =>
    right; exact ⟨msg, Or.inr (Or.inl h2), by simp [summaryAttempt, h1, h2, bind, Except.bind]⟩
  | ok m =>
  cases h3 : s.countUsers with
  | error msg =>
    right
    exact ⟨msg, Or.inr (Or.inr (Or.inl h3)),
      by simp [summaryAttempt, h1, h2, h3, bind, Except.bind]⟩
  | ok u =>
  cases h4 : s.findElections with
  | error msg =>
    right
    exact ⟨msg, Or.inr (Or.inr (Or.inr (Or.inl h4))),
      by simp [summaryAttempt, h1, h2, h3, h4, bind, Except.bind]⟩
  | ok es =>
  rcases promiseAll_entries_cases s u es with hall | ⟨E, hmem, msg, herr, hp⟩
  · cases h6 : s.distinctVoteUsers with
    | error msg =>
      right
      refine ⟨msg, Or.inr (Or.inr (Or.inr (Or.inr (Or.inr h6)))), ?_⟩
      obtain ⟨c, hc⟩ : ∃ c : ObjectId → ℕ, ∀ E ∈ es, s.countVotesOf E._id = .ok (c E._id) := by
        refine ⟨fun id => match s.countVotesOf id with | .ok v => v | .error _ => 0, ?_⟩
        intro E hE
        obtain ⟨v, hv⟩ := hall E hE
        simp [hv]
      have hp := promiseAll_entries_ok s u c es hc
      simp only [bind, Except.bind, pure, Except.pure] at hp
      simp only [summaryAttempt, h1, h2, h3, h4, h6, bind, Except.bind, pure, Except.pure, hp]
    | ok vs =>
      left
      obtain ⟨c, hc⟩ : ∃ c : ObjectId → ℕ, ∀ E ∈ es, s.countVotesOf E._id = .ok (c E._id) := by
        refine ⟨fun id => match s.countVotesOf id with | .ok v => v | .error _ => 0, ?_⟩
        intro E hE
        obtain ⟨v, hv⟩ := hall E hE
        simp [hv]
      exact ⟨n, m, u, es, c, vs, rfl, rfl, rfl, rfl, hc, rfl⟩
  · right
    refine ⟨msg, Or.inr (Or.inr (Or.inr (Or.inr (Or.inl ⟨es, E, h4, hmem, herr⟩)))), ?_⟩
    simp only [bind, Except.bind, pure, Except.pure] at hp
    simp only [summaryAttempt, h1, h2, h3, h4, bind, Except.bind, pure, Except.pure, hp]

/-- A store none of whose queries fails. -/
theorem not_fails_of_ok (s : Store) (n m u : ℕ) (es : List Election) (c : ObjectId → ℕ)
    (vs : List ObjectId) (h1 : s.countElections = .ok n) (h2 : s.countVotes = .ok m)
    (h3 : s.countUsers = .ok u) (h4 : s.findElections = .ok es)
    (h5 : ∀ E ∈ es, s.countVotesOf E._id = .ok (c E._id))
    (h6 : s.distinctVoteUsers = .ok vs) (msg : String) : ¬ s.Fails msg := by
  rintro (h | h | h | h | ⟨es2, E, hes, hE, h⟩ | h)
  · rw [h1] at h; cases h
  · rw [h2] at h; cases h
  · rw [h3] at h; cases h
  · rw [h4] at h; cases h
  · rw [h4] at hes; cases hes
    rw [h5 E hE] at h; cases h
  · rw [h6] at h; cases h


theorem percentOf_3_10 : percentOf 3 10 = 30 := by
  rw [percentOf_eq_floor 3 10 (by norm_num) (by norm_num) (by decide), Int.floor_eq_iff]
  norm_num

theorem percentOf_7_10 : percentOf 7 10 = 70 := by
  rw [percentOf_eq_floor 7 10 (by norm_num) (by norm_num) (by decide), Int.floor_eq_iff]
  norm_num

/-- A response with status 200 is the result of a successful `try` block. -/
theorem summaryAttempt_of_sent (s : Store) (body : JsVal)
    (h : (getReportSummary s Res.fresh).sent = [(200, body)]) : summaryAttempt s = .ok body := by
  unfold getReportSummary at h
  cases hs : summaryAttempt s with
  | error msg =>
    rw [hs] at h
    simp [Res.json, Res.status, Res.fresh] at h
  | ok b =>
    rw [hs] at h
    simp [Res.json, Res.fresh] at h
    rw [h]

/-! ## Report aggregator: turnout (C1 - C4) -/

/-- C1 (counterexample): with 23 votes for the election and 40 users the handler reports
a turnout of 57, whereas `⌊100 * 23 / 40 + 1 / 2⌋` is 58: the product `(23 / 40) * 100`
is `57.49999999999999` in binary64. -/
theorem turnout_tie_counterexample :
    db23of40.elections[0]? = some ⟨1, "Guild President", "active"⟩ ∧
    0 < db23of40.users.length ∧
    (getReportSummary db23of40.toStore Res.fresh).body.bind (fun b => b.turnoutAt 0)
      = some 57 ∧
    ⌊100 * (db23of40.votesFor 1 : ℚ) / (db23of40.users.length : ℚ) + 1 / 2⌋ = 58 := by
  have hv : db23of40.votesFor 1 = 23 := by decide
  have hu : db23of40.users.length = 40 := by decide
  refine ⟨rfl, by decide, ?_, ?_⟩
  · rw [body_toStore, Option.some_bind, turnoutAt_summaryBody, hu]
    show some (percentOf (db23of40.votesFor 1) 40) = some 57
    rw [hv, percentOf_23_40]
  · rw [hv, hu, Int.floor_eq_iff]; norm_num

/-- C1 (amended): for every election `E` of the store, `totalUsers > 0` and fewer than
`2 ^ 44` votes for `E`, the reported turnout of `E` is an integer nearest to
`100 * votes(E) / totalUsers` (it differs from it by at most `1 / 2`), and it equals
`⌊100 * votes(E) / totalUsers + 1 / 2⌋` whenever `100 * votes(E) / totalUsers` is not
exactly half-way between two integers; with one vote and eight users it is 13. -/
theorem turnout_nearest_integer (db : Db) (i : ℕ) (E : Election)
    (hE : db.elections[i]? = some E) (hu : 0 < db.users.length)
    (hv : db.votesFor E._id < 2 ^ 44) :
    (∃ t : ℤ,
      (getReportSummary db.toStore Res.fresh).body.bind (fun b => b.turnoutAt i) = some t ∧
      |(t : ℚ) - 100 * (db.votesFor E._id : ℚ) / (db.users.length : ℚ)| ≤ 1 / 2 ∧
      ((200 * db.votesFor E._id) % (2 * db.users.length) ≠ db.users.length →
        t = ⌊100 * (db.votesFor E._id : ℚ) / (db.users.length : ℚ) + 1 / 2⌋)) ∧
    (getReportSummary db1of8.toStore Res.fresh).body.bind (fun b => b.turnoutAt 0)
      = some 13 := by
  refine ⟨⟨percentOf (db.votesFor E._id) db.users.length, ?_,
    percentOf_nearest _ _ hu hv, percentOf_eq_floor _ _ hu hv⟩, ?_⟩
  · rw [body_toStore, Option.some_bind, turnoutAt_summaryBody, hE]
    rfl
  · have hv1 : db1of8.votesFor 1 = 1 := by decide
    have hu1 : db1of8.users.length = 8 := by decide
    rw [body_toStore, Option.some_bind, turnoutAt_summaryBody, hu1]
    show some (percentOf (db1of8.votesFor 1) 8) = some 13
    rw [hv1, percentOf_1_8]

/-- C1 (witness): the store with 3 and 7 votes among 10 users, first election. -/
theorem turnout_nearest_integer_witness :
    db3and7.elections[0]? = some ⟨1, "Guild President", "completed"⟩ ∧
    0 < db3and7.users.length ∧ db3and7.votesFor 1 < 2 ^ 44 ∧
    ((∃ t : ℤ,
      (getReportSummary db3and7.toStore Res.fresh).body.bind (fun b => b.turnoutAt 0)
        = some t ∧
      |(t : ℚ) - 100 * (db3and7.votesFor 1 : ℚ) / (db3and7.users.length : ℚ)| ≤ 1 / 2 ∧
      ((200 * db3and7.votesFor 1) % (2 * db3and7.users.length) ≠ db3and7.users.length →
        t = ⌊100 * (db3and7.votesFor 1 : ℚ) / (db3and7.users.length : ℚ) + 1 / 2⌋)) ∧
    (getReportSummary db1of8.toStore Res.fresh).body.bind (fun b => b.turnoutAt 0)
      = some 13) :=
  ⟨rfl, by decide, by decide,
    turnout_nearest_integer db3and7 0 ⟨1, "Guild President", "completed"⟩ rfl
      (by decide) (by decide)⟩

/-- C2 (counterexample): with 29 distinct voters and 200 users the handler reports a
voter turnout of 14, whereas `⌊100 * 29 / 200 + 1 / 2⌋` is 15: the product
`(29 / 200) * 100` is `14.499999999999998` in binary64. -/
theorem voterTurnout_tie_counterexample :
    0 < db29of200.users.length ∧
    ((db29of200.votes.map fun v => v.user).toFinset).card = 29 ∧
    db29of200.users.length = 200 ∧
    (getReportSummary db29of200.toStore Res.fresh).body.bind (JsVal.numField "voterTurnout")
      = some 14 ∧
    ⌊100 * (29 : ℚ) / 200 + 1 / 2⌋ = 15 := by
  have hv : db29of200.voters.length = 29 := by decide
  have hu : db29of200.users.length = 200 := rfl
  refine ⟨by rw [hu]; norm_num, by decide, hu, ?_, ?_⟩
  · rw [body_toStore, Option.some_bind, (numField_summaryBody _ _ _ _ _).2.2.2.1, hv, hu,
      percentOf_29_200]
  · rw [Int.floor_eq_iff]; norm_num

/-- C2 (amended): `voted` is the number of distinct user references occurring in the
votes collection, `notVoted` is `totalUsers - voted`, and for `totalUsers > 0` and fewer
than `2 ^ 44` voters `voterTurnout` is an integer nearest to `100 * voted / totalUsers`,
equal to `⌊100 * voted / totalUsers + 1 / 2⌋` whenever that quotient is not exactly
half-way between two integers. -/
theorem voted_notVoted_voterTurnout (db : Db) :
    ∃ voted notVoted voterTurnout : ℤ,
      (getReportSummary db.toStore Res.fresh).body.bind (JsVal.numField "voted")
        = some voted ∧
      (getReportSummary db.toStore Res.fresh).body.bind (JsVal.numField "notVoted")
        = some notVoted ∧
      (getReportSummary db.toStore Res.fresh).body.bind (JsVal.numField "voterTurnout")
        = some voterTurnout ∧
      voted = ((db.votes.map fun v => v.user).toFinset).card ∧
      notVoted = (db.users.length : ℤ) - voted ∧
      (0 < db.users.length → ((db.votes.map fun v => v.user).toFinset).card < 2 ^ 44 →
        |(voterTurnout : ℚ) - 100 * (voted : ℚ) / (db.users.length : ℚ)| ≤ 1 / 2 ∧
        ((200 * ((db.votes.map fun v => v.user).toFinset).card) % (2 * db.users.length)
            ≠ db.users.length →
          voterTurnout = ⌊100 * (voted : ℚ) / (db.users.length : ℚ) + 1 / 2⌋)) := by
  obtain ⟨-, -, -, h4, h5, h6⟩ := numField_summaryBody db.elections.length db.votes.length
    db.users.length db.voters.length
    (db.elections.map fun E => electionEntry db.users.length (db.votesFor E._id) E)
  refine ⟨db.voters.length, (db.users.length : ℤ) - db.voters.length,
    percentOf db.voters.length db.users.length, ?_, ?_, ?_, ?_, rfl, ?_⟩
  · rw [body_toStore, Option.some_bind, h5]
  · rw [body_toStore, Option.some_bind, h6]
  · rw [body_toStore, Option.some_bind, h4]
  · rw [voters_length]
  · intro hu hv
    rw [← voters_length] at hv ⊢
    refine ⟨?_, ?_⟩
    · have := percentOf_nearest _ _ hu hv
      simpa using this
    · intro hne
      have := percentOf_eq_floor _ _ hu hv hne
      simpa using this

/-- C2 (witness): the store with 3 and 7 votes of ten distinct users among 10 users. -/
theorem voted_notVoted_voterTurnout_witness :
    0 < db3and7.users.length ∧
    ((db3and7.votes.map fun v => v.user).toFinset).card < 2 ^ 44 ∧
    ∃ voted notVoted voterTurnout : ℤ,
      (getReportSummary db3and7.toStore Res.fresh).body.bind (JsVal.numField "voted")
        = some voted ∧
      (getReportSummary db3and7.toStore Res.fresh).body.bind (JsVal.numField "notVoted")
        = some notVoted ∧
      (getReportSummary db3and7.toStore Res.fresh).body.bind (JsVal.numField "voterTurnout")
        = some voterTurnout ∧
      voted = 10 ∧ notVoted = 0 ∧
      |(voterTurnout : ℚ) - 100 * (voted : ℚ) / (db3and7.users.length : ℚ)| ≤ 1 / 2 := by
  obtain ⟨voted, notVoted, voterTurnout, h1, h2, h3, h4, h5, h6⟩ :=
    voted_notVoted_voterTurnout db3and7
  have hc : ((db3and7.votes.map fun v => v.user).toFinset).card = 10 := by decide
  have hu : db3and7.users.length = 10 := by decide
  refine ⟨by decide, by rw [hc]; norm_num, voted, notVoted, voterTurnout, h1, h2, h3, ?_, ?_,
    (h6 (by decide) (by rw [hc]; norm_num)).1⟩
  · rw [h4, hc]; rfl
  · rw [h5, h4, hc, hu]; norm_num

/-- C3: when the users collection is empty, the handler answers once, with status 200,
`voterTurnout` 0 and a turnout of 0 for every election, whatever the votes collection
holds. -/
theorem zero_users_zero_turnout (db : Db) (h : db.users.length = 0) :
    (getReportSummary db.toStore Res.fresh).sent.map Prod.fst = [200] ∧
    (getReportSummary db.toStore Res.fresh).body.bind (JsVal.numField "voterTurnout")
      = some 0 ∧
    ∀ i, i < db.elections.length →
      (getReportSummary db.toStore Res.fresh).body.bind (fun b => b.turnoutAt i)
        = some 0 := by
  refine ⟨by rw [getReportSummary_toStore]; rfl, ?_, ?_⟩
  · rw [body_toStore, Option.some_bind, (numField_summaryBody _ _ _ _ _).2.2.2.1, h,
      percentOf_zero_users]
  · intro i hi
    rw [body_toStore, Option.some_bind, turnoutAt_summaryBody, h,
      List.getElem?_eq_getElem hi]
    simp [percentOf_zero_users]

/-- C3 (witness): two elections and three votes, no users. -/
theorem zero_users_zero_turnout_witness :
    dbNoUsers.users.length = 0 ∧ dbNoUsers.votes ≠ [] ∧
    (getReportSummary dbNoUsers.toStore Res.fresh).sent.map Prod.fst = [200] ∧
    (getReportSummary dbNoUsers.toStore Res.fresh).body.bind (JsVal.numField "voterTurnout")
      = some 0 ∧
    (getReportSummary dbNoUsers.toStore Res.fresh).body.bind (fun b => b.turnoutAt 0)
      = some 0 ∧
    (getReportSummary dbNoUsers.toStore Res.fresh).body.bind (fun b => b.turnoutAt 1)
      = some 0 :=
  ⟨rfl, by decide, (zero_users_zero_turnout dbNoUsers rfl).1,
    (zero_users_zero_turnout dbNoUsers rfl).2.1,
    (zero_users_zero_turnout dbNoUsers rfl).2.2 0 (by decide),
    (zero_users_zero_turnout dbNoUsers rfl).2.2 1 (by decide)⟩

/-- C4: for every election `E` of the store, if `totalUsers > 0` and
`votes(E) ≤ totalUsers`, the reported turnout of `E` lies between 0 and 100. -/
theorem turnout_bounds (db : Db) (i : ℕ) (E : Election) (hE : db.elections[i]? = some E)
    (hu : 0 < db.users.length) (hv : db.votesFor E._id ≤ db.users.length) :
    ∃ t : ℤ,
      (getReportSummary db.toStore Res.fresh).body.bind (fun b => b.turnoutAt i) = some t ∧
      0 ≤ t ∧ t ≤ 100 := by
  refine ⟨percentOf (db.votesFor E._id) db.users.length, ?_, percentOf_bounds _ _ hu hv⟩
  rw [body_toStore, Option.some_bind, turnoutAt_summaryBody, hE]
  rfl

/-- C4 (witness): the second election of the store with 3 and 7 votes among 10 users. -/
theorem turnout_bounds_witness :
    db3and7.elections[1]? = some ⟨2, "Speaker", "active"⟩ ∧
    0 < db3and7.users.length ∧ db3and7.votesFor 2 ≤ db3and7.users.length ∧
    ∃ t : ℤ,
      (getReportSummary db3and7.toStore Res.fresh).body.bind (fun b => b.turnoutAt 1)
        = some t ∧
      0 ≤ t ∧ t ≤ 100 :=
  ⟨rfl, by decide, by decide,
    turnout_bounds db3and7 1 ⟨2, "Speaker", "active"⟩ rfl (by decide) (by decide)⟩

/-! ## Report aggregator: counts (C5, C6) -/

/-- C5: for every content of the store, the summary satisfies
`voted + notVoted = totalUsers`. -/
theorem voted_add_notVoted (db : Db) :
    ∃ voted notVoted totalUsers : ℤ,
      (getReportSummary db.toStore Res.fresh).body.bind (JsVal.numField "voted")
        = some voted ∧
      (getReportSummary db.toStore Res.fresh).body.bind (JsVal.numField "notVoted")
        = some notVoted ∧
      (getReportSummary db.toStore Res.fresh).body.bind (JsVal.numField "totalUsers")
        = some totalUsers ∧
      voted + notVoted = totalUsers := by
  obtain ⟨-, -, h3, -, h5, h6⟩ := numField_summaryBody db.elections.length db.votes.length
    db.users.length db.voters.length
    (db.elections.map fun E => electionEntry db.users.length (db.votesFor E._id) E)
  refine ⟨db.voters.length, (db.users.length : ℤ) - db.voters.length, db.users.length,
    ?_, ?_, ?_, by ring⟩
  · rw [body_toStore, Option.some_bind, h5]
  · rw [body_toStore, Option.some_bind, h6]
  · rw [body_toStore, Option.some_bind, h3]

/-- C6: `totalElections`, `totalVotes` and `totalUsers` are the numbers of documents in
the three collections, and the `votes` of each election entry is the number of vote
records whose election reference is that election. -/
theorem totals_are_cardinalities (db : Db) :
    (getReportSummary db.toStore Res.fresh).body.bind (JsVal.numField "totalElections")
      = some (db.elections.length : ℤ) ∧
    (getReportSummary db.toStore Res.fresh).body.bind (JsVal.numField "totalVotes")
      = some (db.votes.length : ℤ) ∧
    (getReportSummary db.toStore Res.fresh).body.bind (JsVal.numField "totalUsers")
      = some (db.users.length : ℤ) ∧
    ∀ i E, db.elections[i]? = some E →
      (getReportSummary db.toStore Res.fresh).body.bind (fun b => b.votesAt i)
        = some ((db.votes.countP fun v => v.election = E._id : ℕ) : ℤ) := by
  obtain ⟨h1, h2, h3, -⟩ := numField_summaryBody db.elections.length db.votes.length
    db.users.length db.voters.length
    (db.elections.map fun E => electionEntry db.users.length (db.votesFor E._id) E)
  refine ⟨?_, ?_, ?_, ?_⟩
  · rw [body_toStore, Option.some_bind, h1]
  · rw [body_toStore, Option.some_bind, h2]
  · rw [body_toStore, Option.some_bind, h3]
  · intro i E hE
    rw [body_toStore, Option.some_bind, votesAt_summaryBody, hE, ← votesFor_eq_countP]
    rfl

/-- C6 (witness): the store with 3 and 7 votes, second election. -/
theorem totals_are_cardinalities_witness :
    db3and7.elections[1]? = some ⟨2, "Speaker", "active"⟩ ∧
    (getReportSummary db3and7.toStore Res.fresh).body.bind (fun b => b.votesAt 1)
      = some ((db3and7.votes.countP fun v => v.election = 2 : ℕ) : ℤ) :=
  ⟨rfl, (totals_are_cardinalities db3and7).2.2.2 1 ⟨2, "Speaker", "active"⟩ rfl⟩


/-! ## Report aggregator: shape of the responses and the worked example (C7 - C9) -/

/-- C7: when the handler answers with status 200, the body has exactly the properties
`totalElections`, `totalVotes`, `totalUsers`, `voterTurnout`, `voted`, `notVoted` and
`elections`; `elections` has one entry per election returned by the store, in the same
order, each with exactly the properties `_id`, `name`, `status`, `votes`, `turnout`, where
`_id`, `name` and `status` are those of the election; and against an unchanging store
the length of `elections` is `totalElections`. -/
theorem summary_shape (s : Store) (body : JsVal) (es : List Election)
    (h : (getReportSummary s Res.fresh).sent = [(200, body)])
    (hes : s.findElections = .ok es) :
    body.keys = ["totalElections", "totalVotes", "totalUsers", "voterTurnout", "voted",
      "notVoted", "elections"] ∧
    body.electionEntries.length = es.length ∧
    (∀ (i : ℕ) (E : Election), es[i]? = some E →
      ∃ entry : JsVal, body.electionEntries[i]? = some entry ∧
      entry.keys = ["_id", "name", "status", "votes", "turnout"] ∧
      entry.get "_id" = some (.oid E._id) ∧ entry.get "name" = some (.str E.name) ∧
      entry.get "status" = some (.str E.status)) ∧
    (∀ db : Db, s = db.toStore →
      body.numField "totalElections" = some (body.electionEntries.length : ℤ)) := by
  have hb := summaryAttempt_of_sent s body h
  rcases summaryAttempt_cases s with ⟨n, m, u, es2, c, vs, h1, h2, h3, h4, h5, h6⟩ | ⟨msg, -, he⟩
  · rw [summaryAttempt_ok s n m u es2 c vs h1 h2 h3 h4 h5 h6] at hb
    rw [hes] at h4
    cases h4
    cases hb
    refine ⟨rfl, ?_, ?_, ?_⟩
    · rw [electionEntries_summaryBody, List.length_map]
    · intro i E hE
      refine ⟨electionEntry u (c E._id) E, ?_, rfl, ?_, ?_, ?_⟩
      · rw [electionEntries_summaryBody, List.getElem?_map, hE]; rfl
      · simp [electionEntry, JsVal.get, List.find?]
      · simp [electionEntry, JsVal.get, List.find?]
      · simp [electionEntry, JsVal.get, List.find?]
    · intro db hdb
      subst hdb
      have : n = db.elections.length := by
        have : (Except.ok db.elections.length : Except String ℕ) = .ok n := h1
        cases this; rfl
      rw [(numField_summaryBody _ _ _ _ _).1, electionEntries_summaryBody, List.length_map,
        this]
      have : (Except.ok db.elections : Except String (List Election)) = .ok es := hes
      cases this; rfl
  · rw [he] at hb; cases hb


/-- C7 (witness): the store with 3 and 7 votes among 10 users. -/
theorem summary_shape_witness :
    (getReportSummary db3and7.toStore Res.fresh).sent = [(200, summaryBody 2 10 10 10
      (db3and7.elections.map fun E => electionEntry 10 (db3and7.votesFor E._id) E))] ∧
    db3and7.toStore.findElections = .ok db3and7.elections ∧
    (summaryBody 2 10 10 10
      (db3and7.elections.map fun E => electionEntry 10 (db3and7.votesFor E._id) E)).keys =
      ["totalElections", "totalVotes", "totalUsers", "voterTurnout", "voted", "notVoted",
        "elections"] ∧
    (summaryBody 2 10 10 10
      (db3and7.elections.map fun E =>
        electionEntry 10 (db3and7.votesFor E._id) E)).electionEntries.length = 2 :=
  have h : (getReportSummary db3and7.toStore Res.fresh).sent = [(200, summaryBody 2 10 10 10
      (db3and7.elections.map fun E => electionEntry 10 (db3and7.votesFor E._id) E))] := by
    rw [getReportSummary_toStore]
    have hv : db3and7.voters.length = 10 := by decide
    rw [hv]; rfl
  ⟨h, rfl, (summary_shape db3and7.toStore _ db3and7.elections h rfl).1,
    (summary_shape db3and7.toStore _ db3and7.elections h rfl).2.1⟩

/-- C8: for a store with 10 users and two elections that received 3 and 7 votes, 10 vote
records in total, the summary has the turnouts 30 and 70 in election order,
`totalVotes = 10` and `totalElections = 2`. -/
theorem example_three_and_seven (db : Db) (e1 e2 : Election) (hel : db.elections = [e1, e2])
    (hu : db.users.length = 10) (h1 : db.votesFor e1._id = 3) (h2 : db.votesFor e2._id = 7)
    (hv : db.votes.length = 10) :
    ∃ body, getReportSummary db.toStore Res.fresh = ⟨200, [(200, body)]⟩ ∧
      body.electionEntries.map (JsVal.numField "turnout") = [some 30, some 70] ∧
      body.numField "totalVotes" = some 10 ∧
      body.numField "totalElections" = some 2 := by
  refine ⟨_, getReportSummary_toStore db, ?_, ?_, ?_⟩
  · rw [electionEntries_summaryBody, hel, hu]
    simp only [List.map_cons, List.map_nil, h1, h2]
    simp [electionEntry, JsVal.numField, JsVal.get, JsVal.asNum, List.find?, percentOf_3_10,
      percentOf_7_10]
  · rw [(numField_summaryBody _ _ _ _ _).2.1, hv]; rfl
  · rw [(numField_summaryBody _ _ _ _ _).1, hel]; rfl

/-- C8 (witness): ten users, votes 0-2 for the first election and 3-9 for the second. -/
theorem example_three_and_seven_witness :
    db3and7.elections = [⟨1, "Guild President", "completed"⟩, ⟨2, "Speaker", "active"⟩] ∧
    db3and7.users.length = 10 ∧ db3and7.votesFor 1 = 3 ∧ db3and7.votesFor 2 = 7 ∧
    db3and7.votes.length = 10 ∧
    ∃ body, getReportSummary db3and7.toStore Res.fresh = ⟨200, [(200, body)]⟩ ∧
      body.electionEntries.map (JsVal.numField "turnout") = [some 30, some 70] ∧
      body.numField "totalVotes" = some 10 ∧
      body.numField "totalElections" = some 2 :=
  ⟨rfl, by decide, by decide, by decide, by decide,
    example_three_and_seven db3and7 ⟨1, "Guild President", "completed"⟩ ⟨2, "Speaker", "active"⟩
      rfl (by decide) (by decide) (by decide) (by decide)⟩

/-- C9: if some query fails, the only response on a fresh `res` has status 500 and the
body `{ message: 'Failed to fetch report summary', error: msg }`, with `msg` the message
of a failing query and no other property; if no query fails, the only response has
status 200 and carries the full summary built from the query results; in both cases the
handler sends exactly one response. -/
theorem failure_or_full_summary (s : Store) (res : Res) :
    ((∃ msg, s.Fails msg) →
      ∃ msg, s.Fails msg ∧
        getReportSummary s Res.fresh = ⟨500, [(500, .obj [
          ("message", .str "Failed to fetch report summary"), ("error", .str msg)])]⟩ ∧
        (JsVal.obj [("message", .str "Failed to fetch report summary"),
          ("error", .str msg)]).keys = ["message", "error"]) ∧
    ((¬ ∃ msg, s.Fails msg) →
      ∃ (n m u : ℕ) (es : List Election) (c : ObjectId → ℕ) (vs : List ObjectId),
        s.countElections = .ok n ∧ s.countVotes = .ok m ∧ s.countUsers = .ok u ∧
        s.findElections = .ok es ∧ (∀ E ∈ es, s.countVotesOf E._id = .ok (c E._id)) ∧
        s.distinctVoteUsers = .ok vs ∧
        getReportSummary s Res.fresh = ⟨200, [(200, summaryBody n m u vs.length
          (es.map fun E => electionEntry u (c E._id) E))]⟩) ∧
    (getReportSummary s res).sent.length = res.sent.length + 1 := by
  refine ⟨?_, ?_, ?_⟩
  · rintro ⟨msg0, hf0⟩
    rcases summaryAttempt_cases s with ⟨n, m, u, es, c, vs, h1, h2, h3, h4, h5, h6⟩ | ⟨msg, hf, he⟩
    · exact absurd hf0 (not_fails_of_ok s n m u es c vs h1 h2 h3 h4 h5 h6 msg0)
    · refine ⟨msg, hf, ?_, rfl⟩
      unfold getReportSummary
      rw [he]; rfl
  · intro hno
    rcases summaryAttempt_cases s with ⟨n, m, u, es, c, vs, h1, h2, h3, h4, h5, h6⟩ | ⟨msg, hf, -⟩
    · refine ⟨n, m, u, es, c, vs, h1, h2, h3, h4, h5, h6, ?_⟩
      unfold getReportSummary
      rw [summaryAttempt_ok s n m u es c vs h1 h2 h3 h4 h5 h6]; rfl
    · exact absurd ⟨msg, hf⟩ hno
  · unfold getReportSummary
    cases summaryAttempt s <;> simp [Res.json, Res.status]

/-- C9 (witness): the user count fails with the message `connection lost`. -/
theorem failure_or_full_summary_witness :
    failingStore.Fails "connection lost" ∧
    getReportSummary failingStore Res.fresh = ⟨500, [(500, .obj [
      ("message", .str "Failed to fetch report summary"),
      ("error", .str "connection lost")])]⟩ := by
  have hf : failingStore.Fails "connection lost" := Or.inr (Or.inr (Or.inl rfl))
  obtain ⟨msg, hm, hr, -⟩ := (failure_or_full_summary failingStore Res.fresh).1 ⟨_, hf⟩
  have : msg = "connection lost" := by
    rcases hm with h | h | h | h | ⟨es, E, hes, hE, -⟩ | h
    · cases h
    · cases h
    · cases h; rfl
    · cases h
    · cases hes; cases hE
    · cases h
  subst this
  exact ⟨hf, hr⟩

/-! ## Status resolver (C10) -/

/-- C10: for every election whose `startDate` and `endDate` are both present and every
current time `now` with `startDate ≤ now ≤ endDate`, both bounds included, the
computed status is `active`, whatever the stored status; in particular for
`startDate = T - 1`, `endDate = T + 1` and `now = T`. -/
theorem status_active_within_dates (election : ClientElection) (now s e : ℤ)
    (hs : election.startDate = .value (some s)) (he : election.endDate = .value (some e))
    (h1 : s ≤ now) (h2 : now ≤ e) :
    actualStatus now election = "active" ∧
    ∀ (T : ℤ) (id : ObjectId) (title description stored : String),
      actualStatus T ⟨id, title, description, stored, .value (some (T - 1)),
        .value (some (T + 1))⟩ = "active" := by
  constructor
  · simp [actualStatus, hs, he, DateField.truthy, DateField.toDate, dateLt, dateLe, h1, h2]
  · intro T id title description stored
    simp [actualStatus, DateField.truthy, DateField.toDate, dateLt, dateLe]

/-- C10 (witness): `startDate = T - 1`, `endDate = T + 1`, `now = T`, stored status
`cancelled`. -/
theorem status_active_within_dates_witness :
    (1700000000000 - 1 : ℤ) ≤ 1700000000000 ∧ (1700000000000 : ℤ) ≤ 1700000000000 + 1 ∧
    actualStatus 1700000000000
      ⟨7, "Guild elections", "Annual vote", "cancelled",
        .value (some (1700000000000 - 1)), .value (some (1700000000000 + 1))⟩ = "active" :=
  ⟨by decide, by decide,
    (status_active_within_dates _ 1700000000000 (1700000000000 - 1) (1700000000000 + 1)
      rfl rfl (by decide) (by decide)).1⟩

/-! ## Status resolver (C11 - C15) -/

/-- With both dates present and valid the computed status follows the dates alone. -/
theorem actualStatus_of_valid (election : ClientElection) (now s e : ℤ)
    (hs : election.startDate = .value (some s)) (he : election.endDate = .value (some e)) :
    actualStatus now election =
      if now < s then "upcoming" else if now ≤ e then "active" else "completed" := by
  by_cases h1 : now < s
  · simp [actualStatus, hs, he, DateField.truthy, DateField.toDate, dateLt, dateLe, h1]
  · have h1b : s ≤ now := not_lt.mp h1
    by_cases h2 : now ≤ e
    · simp [actualStatus, hs, he, DateField.truthy, DateField.toDate, dateLt, dateLe, h1,
        h1b, h2]
    · have h2b : e < now := not_le.mp h2
      simp [actualStatus, hs, he, DateField.truthy, DateField.toDate, dateLt, dateLe, h1,
        h1b, h2, h2b]

/-- C11 (counterexample): with `startDate = T + 1`, `endDate = T - 1` and `now = T` the
current time is after the end date, yet the computed status is `upcoming`, not
`completed`: the test `now < startDate` comes first. -/
theorem status_after_end_counterexample :
    (1700000000000 - 1 : ℤ) < 1700000000000 ∧
    actualStatus 1700000000000
      ⟨7, "Guild elections", "Annual vote", "active",
        .value (some (1700000000000 + 1)), .value (some (1700000000000 - 1))⟩ = "upcoming" ∧
    actualStatus 1700000000000
      ⟨7, "Guild elections", "Annual vote", "active",
        .value (some (1700000000000 + 1)), .value (some (1700000000000 - 1))⟩ ≠ "completed" := by
  refine ⟨by decide, by decide, by decide⟩

/-- C11 (amended): for every election with both dates present and every current time
`now` with `now > endDate` and not `now < startDate` (the start date is at most `now`,
or it is not a valid date), the computed status is `completed`, whatever the stored
status; in particular for `endDate = T - 1` and `now = T` when `startDate ≤ T`. -/
theorem status_completed_after_end (election : ClientElection) (now e : ℤ)
    (start : Option ℤ) (hs : election.startDate = .value start)
    (he : election.endDate = .value (some e)) (h1 : e < now)
    (h2 : ∀ s, start = some s → s ≤ now) :
    actualStatus now election = "completed" ∧
    ∀ (T s : ℤ) (id : ObjectId) (title description stored : String), s ≤ T →
      actualStatus T ⟨id, title, description, stored, .value (some s),
        .value (some (T - 1))⟩ = "completed" := by
  constructor
  · cases start with
    | none =>
      simp [actualStatus, hs, he, DateField.truthy, DateField.toDate, dateLt, dateLe, h1]
    | some s =>
      have hs2 := h2 s rfl
      rw [actualStatus_of_valid election now s e hs he, if_neg (not_lt.mpr hs2),
        if_neg (not_le.mpr h1)]
  · intro T s id title description stored hsT
    rw [actualStatus_of_valid _ T s (T - 1) rfl rfl, if_neg (by omega), if_neg (by omega)]

/-- C11 (witness): `startDate = T - 2`, `endDate = T - 1`, `now = T`, stored status
`upcoming`. -/
theorem status_completed_after_end_witness :
    (1700000000000 - 1 : ℤ) < 1700000000000 ∧
    actualStatus 1700000000000
      ⟨7, "Guild elections", "Annual vote", "upcoming",
        .value (some (1700000000000 - 2)), .value (some (1700000000000 - 1))⟩ = "completed" :=
  ⟨by decide,
    (status_completed_after_end _ 1700000000000 (1700000000000 - 1)
      (some (1700000000000 - 2)) rfl rfl (by decide)
      (fun s hs => by cases hs; decide)).1⟩

/-- C12: for every election with both dates present and every current time `now` with
`now < startDate`, the computed status is `upcoming`, whatever the stored status and
whatever the end date; in particular for `startDate = T + 1` and `now = T`. -/
theorem status_upcoming_before_start (election : ClientElection) (now s : ℤ)
    (hs : election.startDate = .value (some s)) (he : election.endDate.truthy = true)
    (h : now < s) :
    actualStatus now election = "upcoming" ∧
    ∀ (T : ℤ) (id : ObjectId) (title description stored : String) (endDate : Option ℤ),
      actualStatus T ⟨id, title, description, stored, .value (some (T + 1)),
        .value endDate⟩ = "upcoming" := by
  constructor
  · obtain ⟨t, ht⟩ : ∃ t, election.endDate = .value t := by
      cases h0 : election.endDate <;> simp [h0, DateField.truthy] at he ⊢
    simp [actualStatus, hs, ht, DateField.truthy, DateField.toDate, dateLt, h]
  · intro T id title description stored endDate
    simp [actualStatus, DateField.truthy, DateField.toDate, dateLt]

/-- C12 (witness): `startDate = T + 1`, `now = T`, an end date before the start date,
stored status `completed`. -/
theorem status_upcoming_before_start_witness :
    (1700000000000 : ℤ) < 1700000000000 + 1 ∧
    actualStatus 1700000000000
      ⟨7, "Guild elections", "Annual vote", "completed",
        .value (some (1700000000000 + 1)), .value (some 5)⟩ = "upcoming" :=
  ⟨by decide,
    (status_upcoming_before_start
      ⟨7, "Guild elections", "Annual vote", "completed",
        .value (some (1700000000000 + 1)), .value (some 5)⟩
      1700000000000 (1700000000000 + 1) rfl rfl (by decide)).1⟩

/-- C13 (failing input): an election with stored status `cancelled`, a start date that
is present but not a valid date, and the valid end date `T - 1`, at time `T`: the
computed status is `completed`, not the stored `cancelled`.  With the valid start date
`T + 1` and an invalid end date it is `upcoming`. -/
theorem status_one_invalid_date :
    actualStatus 1700000000000
      ⟨7, "Guild elections", "Annual vote", "cancelled",
        .value none, .value (some (1700000000000 - 1))⟩ = "completed" ∧
    actualStatus 1700000000000
      ⟨7, "Guild elections", "Annual vote", "cancelled",
        .value (some (1700000000000 + 1)), .value none⟩ = "upcoming" := by
  refine ⟨by decide, by decide⟩

/-- C14: for every election whose `startDate` or `endDate` is absent (`undefined`,
`null` or the empty string) the computed status is the stored status, for every stored
value and every current time; a stored `cancelled` stays `cancelled`. -/
theorem status_stored_when_date_absent (election : ClientElection) (now : ℤ)
    (h : election.startDate ∈ [DateField.undefined, DateField.null, DateField.empty] ∨
      election.endDate ∈ [DateField.undefined, DateField.null, DateField.empty]) :
    actualStatus now election = election.status ∧
    (election.status = "cancelled" → actualStatus now election = "cancelled") := by
  have key : actualStatus now election = election.status := by
    rcases h with h | h
    · simp only [List.mem_cons, List.mem_singleton, List.not_mem_nil, or_false] at h
      rcases h with h | h | h <;> simp [actualStatus, h, DateField.truthy]
    · simp only [List.mem_cons, List.mem_singleton, List.not_mem_nil, or_false] at h
      rcases h with h | h | h <;> simp [actualStatus, h, DateField.truthy]
  exact ⟨key, fun hc => by rw [key, hc]⟩

/-- C14 (witness): no start date, an end date in the past, stored status `cancelled`. -/
theorem status_stored_when_date_absent_witness :
    actualStatus 1700000000000
      ⟨7, "Guild elections", "Annual vote", "cancelled", .null, .value (some 5)⟩
      = "cancelled" :=
  (status_stored_when_date_absent
    ⟨7, "Guild elections", "Annual vote", "cancelled", .null, .value (some 5)⟩
    1700000000000 (Or.inl (by decide))).2 rfl

/-- C15: when both dates are present and valid the computed status does not depend on
the stored status: two elections with the same dates resolve to the same status at the
same time, whatever their stored statuses (and other properties) are; in particular the
election object that `handleStatusChange` sends with a new status resolves like the
election it was made from. -/
theorem status_independent_of_stored (e1 e2 : ClientElection) (now s e : ℤ)
    (h1s : e1.startDate = .value (some s)) (h1e : e1.endDate = .value (some e))
    (h2s : e2.startDate = .value (some s)) (h2e : e2.endDate = .value (some e)) :
    actualStatus now e1 = actualStatus now e2 ∧
    ∀ (election : ElectionObject) (newStatus : String),
      election.startDate = .value (some s) → election.endDate = .value (some e) →
      ∃ sent : ElectionObject,
        handleStatusChange election newStatus = .put election._id (.election sent) ∧
        sent.status = newStatus ∧
        actualStatus now sent.toClientElection = actualStatus now election.toClientElection := by
  constructor
  · rw [actualStatus_of_valid e1 now s e h1s h1e, actualStatus_of_valid e2 now s e h2s h2e]
  · intro election newStatus hs he
    refine ⟨{ election with status := newStatus }, rfl, rfl, ?_⟩
    rw [actualStatus_of_valid election.toClientElection now s e hs he]
    exact actualStatus_of_valid _ now s e hs he

/-- C15 (witness): the same dates with the stored statuses `cancelled` and `active`. -/
theorem status_independent_of_stored_witness :
    actualStatus 15 ⟨7, "Guild elections", "Annual vote", "cancelled",
      .value (some 10), .value (some 20)⟩ =
    actualStatus 15 ⟨7, "Guild elections", "Annual vote", "active",
      .value (some 10), .value (some 20)⟩ :=
  (status_independent_of_stored _ _ 15 10 20 rfl rfl rfl rfl).1


/-! ## Elections page lemmas -/

theorem electionWithCounts_status (api : Api) (now : ℤ) (E : ElectionObject) :
    (electionWithCounts api now E).status =
      if api.countsArrive E._id then actualStatus now E.toClientElection else E.status := by
  unfold electionWithCounts Api.countsArrive
  cases h1 : api.getCandidates E._id with
  | error m => simp [Except.isOk, Except.toBool]
  | ok c =>
    cases h2 : api.getVotes E._id with
    | error m => simp [Except.isOk, Except.toBool]
    | ok v => simp [Except.isOk, Except.toBool]

theorem electionWithCounts_of_fail (api : Api) (now : ℤ) (E : ElectionObject)
    (h : api.countsArrive E._id = false) :
    electionWithCounts api now E = { E with candidatesCount := some 0, votesCount := some 0 } := by
  unfold electionWithCounts
  unfold Api.countsArrive at h
  cases h1 : api.getCandidates E._id with
  | error m => rfl
  | ok c =>
    cases h2 : api.getVotes E._id with
    | error m => rfl
    | ok v => simp [h1, h2, Except.isOk, Except.toBool] at h

theorem fetchElections_ok (api : Api) (clock : ℕ → ℤ) (data : List ElectionObject)
    (h : api.getElections = .ok data) :
    fetchElections api clock =
      .ok (data.mapIdx fun i election => electionWithCounts api (clock i) election,
        calculateStats (data.mapIdx fun i election =>
          electionWithCounts api (clock i) election)) := by
  unfold fetchElections
  rw [h]

theorem filter_beq_length_eq_count (l : List ElectionObject) (v : String) :
    (l.filter fun e => e.status == v).length = (l.map fun e => e.status).count v := by
  induction l with
  | nil => rfl
  | cons a l ih =>
    by_cases h : a.status = v
    · simp [List.filter_cons, h, ih]
    · simp [List.filter_cons, h, ih, List.count_cons]


theorem map_status_mapIdx (api : Api) (clock : ℕ → ℤ) (data : List ElectionObject) :
    ((data.mapIdx fun i election => electionWithCounts api (clock i) election).map
      fun e => e.status) =
    data.mapIdx fun i E => resultingStatus api (clock i) E := by
  apply List.ext_getElem?
  intro i
  simp only [List.getElem?_map, List.getElem?_mapIdx, Option.map_map]
  cases data[i]? with
  | none => rfl
  | some E => simp [electionWithCounts_status, resultingStatus]

/-! ## Elections page: what the requests carry (C16) -/

theorem status_of_fetchRequests (api : Api) (r : Request) (h : r ∈ fetchRequests api) :
    r.status = none := by
  unfold fetchRequests at h
  rcases List.mem_cons.mp h with rfl | h
  · rfl
  · cases hget : api.getElections with
    | error m => rw [hget] at h; simp at h
    | ok data =>
      rw [hget] at h
      simp only [List.mem_flatMap] at h
      obtain ⟨E, -, hr⟩ := h
      rcases List.mem_cons.mp hr with rfl | hr
      · rfl
      · cases hc : api.getCandidates E._id with
        | error m => rw [hc] at hr; simp at hr
        | ok c =>
          rw [hc] at hr
          simp only [List.mem_singleton] at hr
          rw [hr]; rfl

theorem openEditModal_ok (isoDate : ℤ → String) (election sel : ElectionObject)
    (form : FormData) (h : openEditModal isoDate election = .ok (sel, form)) :
    sel = election ∧ form.status = election.status := by
  unfold openEditModal at h
  cases h1 : formDate isoDate election.startDate with
  | error m => simp [h1, bind, Except.bind] at h
  | ok a =>
    cases h2 : formDate isoDate election.endDate with
    | error m => simp [h1, h2, bind, Except.bind] at h
    | ok b =>
      simp only [h1, h2, bind, Except.bind, pure, Except.pure, Except.ok.injEq,
        Prod.mk.injEq] at h
      obtain ⟨hsel, hform⟩ := h
      exact ⟨hsel.symm, by rw [← hform]⟩

theorem formDate_ok (isoDate : ℤ → String) (d : DateField) (h : d ≠ .value none) :
    ∃ str, formDate isoDate d = .ok str := by
  cases d with
  | undefined => exact ⟨_, rfl⟩
  | null => exact ⟨_, rfl⟩
  | empty => exact ⟨_, rfl⟩
  | value t =>
    cases t with
    | none => exact absurd rfl h
    | some t => exact ⟨_, rfl⟩

theorem openEditModal_of_dates (isoDate : ℤ → String) (election : ElectionObject)
    (hs : election.startDate ≠ .value none) (he : election.endDate ≠ .value none) :
    ∃ form, openEditModal isoDate election = .ok (election, form) := by
  obtain ⟨a, ha⟩ := formDate_ok isoDate election.startDate hs
  obtain ⟨b, hb⟩ := formDate_ok isoDate election.endDate he
  refine ⟨{
    title := election.title
    description := election.description
    startDate := a
    endDate := b
    status := election.status
    positions := election.positions.getD ["President", "Vice President", "Secretary"] }, ?_⟩
  simp only [openEditModal, ha, hb, bind, Except.bind, pure, Except.pure]

/-- C16 (counterexample): an election stored as `upcoming` whose dates make it `active`
is fetched, the edit form is opened on the resolved election and submitted unchanged:
the request carries the status `active`, not the stored `upcoming`. -/
theorem edit_sends_effective_status_counterexample :
    storedUpcoming.status = "upcoming" ∧
    (fetchElections apiOk fun _ => 15).toOption.bind (fun p => p.1[0]?) =
      some { storedUpcoming with
        status := "active", candidatesCount := some 3, votesCount := some 12 } ∧
    (openEditModal (fun _ => "1970-01-01")
      { storedUpcoming with
        status := "active", candidatesCount := some 3, votesCount := some 12 }).toOption.map
      (fun p => (handleEdit p.1 p.2).status) = some (some "active") := by
  refine ⟨rfl, by decide, by decide⟩

/-- C16 (amended): `fetchElections` itself sends only requests without a status (it
never writes the effective status), `handleStatusChange` sends the status the
administrator chose and `handleDelete` sends none; but the page keeps only the resolved
election, so the edit form opened on it (`openEditModal`) starts with the resolved status
and, submitted (`handleEdit`) without touching the status field, sends that status: the
effective status whenever the count requests of the election succeeded, whatever the
stored status is. -/
theorem edit_sends_resolved_status :
    (∀ (api : Api) (r : Request), r ∈ fetchRequests api → r.status = none) ∧
    (∀ (isoDate : ℤ → String) (election sel : ElectionObject) (form : FormData),
      openEditModal isoDate election = .ok (sel, form) →
      sel = election ∧ form.status = election.status ∧
      ∀ form2 : FormData, form2.status = form.status →
        (handleEdit sel form2).status = some election.status) ∧
    (∀ (api : Api) (now : ℤ) (isoDate : ℤ → String) (E : ElectionObject),
      api.countsArrive E._id = true → E.startDate ≠ .value none → E.endDate ≠ .value none →
      ∃ form, openEditModal isoDate (electionWithCounts api now E)
          = .ok (electionWithCounts api now E, form) ∧
        (handleEdit (electionWithCounts api now E) form).status
          = some (actualStatus now E.toClientElection)) ∧
    (∀ (election : ElectionObject) (newStatus : String),
      (handleStatusChange election newStatus).status = some newStatus) ∧
    (∀ election : ElectionObject, (handleDelete election).status = none) ∧
    (∀ formData : FormData, (handleCreate formData).status = some formData.status) := by
  refine ⟨status_of_fetchRequests, ?_, ?_, fun _ _ => rfl, fun _ => rfl, fun _ => rfl⟩
  · intro isoDate election sel form h
    obtain ⟨h1, h2⟩ := openEditModal_ok isoDate election sel form h
    refine ⟨h1, h2, ?_⟩
    intro form2 h3
    show some form2.status = some election.status
    rw [h3, h2]
  · intro api now isoDate E hc hs he
    have hst : (electionWithCounts api now E).status = actualStatus now E.toClientElection := by
      rw [electionWithCounts_status, if_pos hc]
    have hsd : (electionWithCounts api now E).startDate = E.startDate := by
      unfold electionWithCounts
      cases api.getCandidates E._id <;> [rfl; (cases api.getVotes E._id <;> rfl)]
    have hed : (electionWithCounts api now E).endDate = E.endDate := by
      unfold electionWithCounts
      cases api.getCandidates E._id <;> [rfl; (cases api.getVotes E._id <;> rfl)]
    obtain ⟨form, hform⟩ := openEditModal_of_dates isoDate (electionWithCounts api now E)
      (by rw [hsd]; exact hs) (by rw [hed]; exact he)
    refine ⟨form, hform, ?_⟩
    obtain ⟨-, h2⟩ := openEditModal_ok isoDate _ _ form hform
    show some form.status = _
    rw [h2, hst]

/-- C16 (witness): the election stored as `upcoming`, resolved at time 15. -/
theorem edit_sends_resolved_status_witness :
    apiOk.countsArrive storedUpcoming._id = true ∧
    storedUpcoming.status = "upcoming" ∧
    actualStatus 15 storedUpcoming.toClientElection = "active" ∧
    ∃ form, openEditModal (fun _ => "1970-01-01") (electionWithCounts apiOk 15 storedUpcoming)
        = .ok (electionWithCounts apiOk 15 storedUpcoming, form) ∧
      (handleEdit (electionWithCounts apiOk 15 storedUpcoming) form).status
        = some (actualStatus 15 storedUpcoming.toClientElection) :=
  ⟨rfl, rfl, by decide,
    edit_sends_resolved_status.2.2.1 apiOk 15 (fun _ => "1970-01-01") storedUpcoming rfl
      (by decide) (by decide)⟩

/-! ## Elections page: statistics and failed requests (C17, C18) -/

/-- C17 (counterexample): two elections are fetched and the dates of both make them
`active` at time 15; the candidates request of the first, stored as `upcoming`, fails,
and `calculateStats` counts one active election, not two. -/
theorem stats_failed_request_counterexample :
    apiCandidatesFail.getElections = .ok [storedUpcoming, storedCompleted] ∧
    ([storedUpcoming, storedCompleted].filter fun E =>
      actualStatus 15 E.toClientElection = "active").length = 2 ∧
    (fetchElections apiCandidatesFail fun _ => 15).toOption.map (fun p => p.2.active)
      = some 1 := by
  refine ⟨rfl, by decide, by decide⟩

/-- C17 (amended): when the election list is fetched, the `active`, `upcoming` and
`completed` counts produced by `calculateStats` each equal the number of fetched
elections whose resulting status is that value, the resulting status being the effective
status (from stored status, dates and the time read for that election) when the
candidates and votes requests of the election both succeeded and the stored status
otherwise, and `total` is the number of fetched elections; so when all these requests
succeed and the elections are resolved at one time `now`, each count is the number of
fetched elections whose effective status at `now` is that value. -/
theorem stats_count_resulting_status (api : Api) (clock : ℕ → ℤ)
    (data : List ElectionObject) (h : api.getElections = .ok data) :
    ∃ out stats, fetchElections api clock = .ok (out, stats) ∧
      stats.total = data.length ∧
      stats.active
        = (data.mapIdx fun i E => resultingStatus api (clock i) E).count "active" ∧
      stats.upcoming
        = (data.mapIdx fun i E => resultingStatus api (clock i) E).count "upcoming" ∧
      stats.completed
        = (data.mapIdx fun i E => resultingStatus api (clock i) E).count "completed" ∧
      ∀ now : ℤ, (∀ i, clock i = now) → (∀ E ∈ data, api.countsArrive E._id = true) →
        stats.active = data.countP (fun E => actualStatus now E.toClientElection = "active") ∧
        stats.upcoming
          = data.countP (fun E => actualStatus now E.toClientElection = "upcoming") ∧
        stats.completed
          = data.countP (fun E => actualStatus now E.toClientElection = "completed") := by
  refine ⟨_, _, fetchElections_ok api clock data h, ?_, ?_, ?_, ?_, ?_⟩
  · simp [calculateStats]
  · simp only [calculateStats, filter_beq_length_eq_count, map_status_mapIdx]
  · simp only [calculateStats, filter_beq_length_eq_count, map_status_mapIdx]
  · simp only [calculateStats, filter_beq_length_eq_count, map_status_mapIdx]
  · intro now hclock hall
    have key : (data.mapIdx fun i E => resultingStatus api (clock i) E)
        = data.map fun E => actualStatus now E.toClientElection := by
      apply List.ext_getElem?
      intro i
      simp only [List.getElem?_mapIdx, List.getElem?_map]
      cases hi : data[i]? with
      | none => rfl
      | some E =>
        have hmem : E ∈ data := List.getElem?_mem hi
        simp [resultingStatus, hall E hmem, hclock i]
    simp only [calculateStats, filter_beq_length_eq_count, map_status_mapIdx, key,
      List.count_eq_countP, List.countP_map]
    refine ⟨?_, ?_, ?_⟩ <;> rfl

/-- C17 (witness): both elections fetched, every request answered, one clock. -/
theorem stats_count_resulting_status_witness :
    apiOk.getElections = .ok [storedUpcoming, storedCompleted] ∧
    (∀ E ∈ [storedUpcoming, storedCompleted], apiOk.countsArrive E._id = true) ∧
    ∃ out stats, fetchElections apiOk (fun _ => 15) = .ok (out, stats) ∧
      stats.total = 2 ∧
      stats.active = [storedUpcoming, storedCompleted].countP
        (fun E => actualStatus 15 E.toClientElection = "active") := by
  obtain ⟨out, stats, h1, h2, -, -, -, h6⟩ :=
    stats_count_resulting_status apiOk (fun _ => 15) [storedUpcoming, storedCompleted] rfl
  have hall : ∀ E ∈ [storedUpcoming, storedCompleted], apiOk.countsArrive E._id = true := by
    intro E _; rfl
  exact ⟨rfl, hall, out, stats, h1, h2, (h6 15 (fun _ => rfl) hall).1⟩

/-- C18: if the candidates request or the votes request of a fetched election fails,
the load still succeeds with one entry per fetched election, and the entry of that
election has `candidatesCount = 0`, `votesCount = 0` and every other property,
`status` included, as fetched; the entry of any election depends only on that
election, on the answers to its own two requests and on the time read for it. -/
theorem failed_request_keeps_election (api : Api) (clock : ℕ → ℤ)
    (data : List ElectionObject) (i : ℕ) (E : ElectionObject)
    (h : api.getElections = .ok data) (hE : data[i]? = some E)
    (hfail : (∃ m, api.getCandidates E._id = .error m) ∨ (∃ m, api.getVotes E._id = .error m)) :
    ∃ out stats, fetchElections api clock = .ok (out, stats) ∧
      out.length = data.length ∧
      out[i]? = some { E with candidatesCount := some 0, votesCount := some 0 } ∧
      (out[i]?).map (fun e => e.status) = some E.status ∧
      ∀ (api2 : Api) (j : ℕ) (F : ElectionObject), api2.getElections = .ok data →
        data[j]? = some F → api2.getCandidates F._id = api.getCandidates F._id →
        api2.getVotes F._id = api.getVotes F._id →
        ∃ out2 stats2, fetchElections api2 clock = .ok (out2, stats2) ∧ out2[j]? = out[j]? := by
  have hc : api.countsArrive E._id = false := by
    unfold Api.countsArrive
    rcases hfail with ⟨m, hm⟩ | ⟨m, hm⟩
    · simp [hm, Except.isOk, Except.toBool]
    · simp [hm, Except.isOk, Except.toBool]
  have hout : (data.mapIdx fun i election => electionWithCounts api (clock i) election)[i]?
      = some { E with candidatesCount := some 0, votesCount := some 0 } := by
    rw [List.getElem?_mapIdx, hE, Option.map_some', electionWithCounts_of_fail api _ E hc]
  refine ⟨_, _, fetchElections_ok api clock data h, by simp, hout, by rw [hout]; rfl, ?_⟩
  intro api2 j F h2 hF hcand hvotes
  refine ⟨_, _, fetchElections_ok api2 clock data h2, ?_⟩
  rw [List.getElem?_mapIdx, List.getElem?_mapIdx, hF, Option.map_some', Option.map_some']
  congr 1
  unfold electionWithCounts
  rw [hcand, hvotes]

/-- C18 (witness): the candidates request of the first of two elections fails. -/
theorem failed_request_keeps_election_witness :
    apiCandidatesFail.getElections = .ok [storedUpcoming, storedCompleted] ∧
    (∃ m, apiCandidatesFail.getCandidates storedUpcoming._id = .error m) ∧
    ∃ out stats, fetchElections apiCandidatesFail (fun _ => 15) = .ok (out, stats) ∧
      out.length = 2 ∧
      out[0]? = some { storedUpcoming with candidatesCount := some 0, votesCount := some 0 } ∧
      (out[0]?).map (fun e => e.status) = some "upcoming" := by
  obtain ⟨out, stats, h1, h2, h3, h4, -⟩ :=
    failed_request_keeps_election apiCandidatesFail (fun _ => 15)
      [storedUpcoming, storedCompleted] 0 storedUpcoming rfl rfl (Or.inl ⟨_, rfl⟩)
  exact ⟨rfl, ⟨_, rfl⟩, out, stats, h1, h2, h3, h4⟩


/-! ## Elections page: filtering (C19) -/

theorem filterOrThrow_ok {α : Type} (callback : α → Except String Bool) (p : α → Bool)
    (l : List α) (h : ∀ a ∈ l, callback a = .ok (p a)) :
    filterOrThrow callback l = .ok (l.filter p) := by
  induction l with
  | nil => rfl
  | cons a l ih =>
    have ha := h a (List.mem_cons_self _ _)
    have ih2 := ih fun b hb => h b (List.mem_cons_of_mem _ hb)
    simp only [filterOrThrow, ha, ih2, List.filter_cons]

theorem filterOrThrow_error {α : Type} (callback : α → Except String Bool) (l : List α)
    (a : α) (msg : String) (ha : a ∈ l) (h : callback a = .error msg) :
    ∃ msg2, filterOrThrow callback l = .error msg2 := by
  induction l with
  | nil => cases ha
  | cons b l ih =>
    cases hb : callback b with
    | error e => exact ⟨e, by simp only [filterOrThrow, hb]⟩
    | ok keep =>
      rcases List.mem_cons.mp ha with rfl | hmem
      · rw [h] at hb; cases hb
      · obtain ⟨msg2, h2⟩ := ih hmem
        exact ⟨msg2, by simp only [filterOrThrow, hb, h2]⟩

/-- When the search term is empty, or every election has a title and a description,
`filterElections` yields exactly the elections, in their original order, whose
lower-cased title or description contains the lower-cased search term and whose status
passes the status filter. -/
theorem filterElections_of_texts (lower : String → String) (elections : List ListedElection)
    (searchTerm statusFilter : String)
    (h : searchTerm = "" ∨ ∀ e ∈ elections, e.title ≠ none ∧ e.description ≠ none) :
    filterElections lower elections searchTerm statusFilter =
      .ok (elections.filter (fun e => decide (
        (searchTerm = "" ∨ (lower searchTerm).data <:+: (lower (e.title.getD "")).data ∨
          (lower searchTerm).data <:+: (lower (e.description.getD "")).data) ∧
        (statusFilter = "all" ∨ e.status = statusFilter)))) := by
  have hbeq : ∀ a b : String, (a == b) = decide (a = b) := fun _ _ => rfl
  unfold filterElections
  by_cases h1 : searchTerm = ""
  · by_cases h2 : statusFilter = "all"
    · simp [h1, h2, bind, Except.bind, pure, Except.pure]
    · simp [h1, h2, hbeq, bind, Except.bind, pure, Except.pure]
  · have htexts : ∀ e ∈ elections, e.title ≠ none ∧ e.description ≠ none := by
      rcases h with h | h
      · exact absurd h h1
      · exact h
    have hcb : ∀ e ∈ elections, matchesSearch lower searchTerm e =
        .ok (jsIncludes (lower (e.title.getD "")) (lower searchTerm) ||
          jsIncludes (lower (e.description.getD "")) (lower searchTerm)) := by
      intro e he
      obtain ⟨ht, hd⟩ := htexts e he
      obtain ⟨t, ht⟩ := Option.ne_none_iff_exists'.mp ht
      obtain ⟨d, hd⟩ := Option.ne_none_iff_exists'.mp hd
      unfold matchesSearch lowerIncludes
      rw [ht, hd]
      simp only [bind, Except.bind, pure, Except.pure, Option.getD_some]
      cases jsIncludes (lower t) (lower searchTerm) <;> rfl
    have hf := filterOrThrow_ok _ _ elections hcb
    simp only [ne_eq, h1, not_false_eq_true, if_true, hf, bind, Except.bind, pure, Except.pure]
    by_cases h2 : statusFilter = "all"
    · simp [h1, h2, jsIncludes]
    · simp only [h2, not_false_eq_true, if_true, List.filter_filter, jsIncludes]
      congr 2
      funext e
      simp [h1, h2, Bool.and_comm, hbeq]

/-- With a non-empty search term, an election without a description whose title does
not contain the term makes `filterElections` throw. -/
theorem filterElections_throws (lower : String → String) (elections : List ListedElection)
    (searchTerm statusFilter : String) (e : ListedElection) (title : String)
    (hterm : searchTerm ≠ "") (he : e ∈ elections) (ht : e.title = some title)
    (hd : e.description = none)
    (hno : jsIncludes (lower title) (lower searchTerm) = false) :
    ∃ msg, filterElections lower elections searchTerm statusFilter = .error msg := by
  have hcb : matchesSearch lower searchTerm e =
      .error "TypeError: Cannot read properties of undefined (reading toLowerCase)" := by
    unfold matchesSearch lowerIncludes
    rw [ht, hd]
    simp only [bind, Except.bind, pure, Except.pure, hno]
    rfl
  obtain ⟨msg, hmsg⟩ := filterOrThrow_error _ elections e _ he hcb
  refine ⟨msg, ?_⟩
  unfold filterElections
  simp only [ne_eq, hterm, not_false_eq_true, if_true, hmsg, bind, Except.bind]

/-- C19 (failing input): one election with the title `Guild elections` and no
description, the search term `Speaker` and the status filter `all`: evaluating
`election.description.toLowerCase()` throws a `TypeError`, so `filterElections` yields
no list at all.  With the search term `GUILD`, which the title contains, or with the
empty search term, the description is not read and the election is returned. -/
theorem filter_throws_without_description :
    filterElections asciiLower [listedNoDescription] "Speaker" "all" =
      .error "TypeError: Cannot read properties of undefined (reading toLowerCase)" ∧
    filterElections asciiLower [listedNoDescription] "GUILD" "all"
      = .ok [listedNoDescription] ∧
    filterElections asciiLower [listedNoDescription] "" "all" = .ok [listedNoDescription] :=
  ⟨rfl, rfl, rfl⟩

/-! ## Reports page: most voted candidate (C20) -/

/-- One step of the search: a candidate with strictly more votes replaces the best so
far. -/
theorem foldl_candidates_le (cs : List Candidate) (b : Candidate)
    (h : ∀ c ∈ cs, c.votes ≤ b.votes) :
    cs.foldl (fun best c => if c.votes > best.votes then ⟨c.name, c.votes⟩ else best) b
      = b := by
  induction cs with
  | nil => rfl
  | cons c cs ih =>
    have hc := h c (List.mem_cons_self _ _)
    rw [List.foldl_cons, if_neg (not_lt.mpr hc)]
    exact ih fun c2 h2 => h c2 (List.mem_cons_of_mem _ h2)

theorem foldl_candidates_first_max (cs : List Candidate) (b : Candidate)
    (h : ∃ c ∈ cs, b.votes < c.votes) :
    ∃ i : ℕ, cs[i]? = some
        (cs.foldl (fun best c => if c.votes > best.votes then ⟨c.name, c.votes⟩ else best) b) ∧
      b.votes <
        (cs.foldl (fun best c =>
          if c.votes > best.votes then ⟨c.name, c.votes⟩ else best) b).votes ∧
      (∀ c ∈ cs, c.votes ≤
        (cs.foldl (fun best c =>
          if c.votes > best.votes then ⟨c.name, c.votes⟩ else best) b).votes) ∧
      ∀ (j : ℕ) (c : Candidate), j < i → cs[j]? = some c → c.votes <
        (cs.foldl (fun best c =>
          if c.votes > best.votes then ⟨c.name, c.votes⟩ else best) b).votes := by
  induction cs generalizing b with
  | nil => obtain ⟨c, hc, -⟩ := h; cases hc
  | cons c0 cs ih =>
    rw [List.foldl_cons]
    by_cases h0 : c0.votes > b.votes
    · rw [if_pos h0]
      have eta : (⟨c0.name, c0.votes⟩ : Candidate) = c0 := rfl
      rw [eta]
      by_cases hrest : ∃ c ∈ cs, c0.votes < c.votes
      · obtain ⟨i, hi, hlt, hall, hbefore⟩ := ih c0 hrest
        refine ⟨i + 1, by rw [List.getElem?_cons_succ]; exact hi, by omega, ?_, ?_⟩
        · intro c hc
          rcases List.mem_cons.mp hc with rfl | hc
          · omega
          · exact hall c hc
        · intro j c hj hjc
          cases j with
          | zero =>
            simp only [List.getElem?_cons_zero, Option.some.injEq] at hjc
            rw [← hjc]; exact hlt
          | succ j =>
            simp only [List.getElem?_cons_succ] at hjc
            exact hbefore j c (by omega) hjc
      · push_neg at hrest
        rw [foldl_candidates_le cs c0 hrest]
        refine ⟨0, List.getElem?_cons_zero, h0, ?_, ?_⟩
        · intro c hc
          rcases List.mem_cons.mp hc with rfl | hc
          · exact le_refl _
          · exact hrest c hc
        · intro j c hj; omega
    · rw [if_neg h0]
      have hrest : ∃ c ∈ cs, b.votes < c.votes := by
        obtain ⟨c, hc, hlt⟩ := h
        rcases List.mem_cons.mp hc with rfl | hc
        · exact absurd hlt h0
        · exact ⟨c, hc, hlt⟩
      obtain ⟨i, hi, hlt, hall, hbefore⟩ := ih b hrest
      refine ⟨i + 1, by rw [List.getElem?_cons_succ]; exact hi, hlt, ?_, ?_⟩
      · intro c hc
        rcases List.mem_cons.mp hc with rfl | hc
        · omega
        · exact hall c hc
      · intro j c hj hjc
        cases j with
        | zero =>
          simp only [List.getElem?_cons_zero, Option.some.injEq] at hjc
          rw [← hjc]; omega
        | succ j =>
          simp only [List.getElem?_cons_succ] at hjc
          exact hbefore j c (by omega) hjc

theorem foldl_elections_eq (es : List ReportElection) (b : Candidate) :
    es.foldl (fun best election =>
      (election.candidates.getD []).foldl (fun best c =>
        if c.votes > best.votes then ⟨c.name, c.votes⟩ else best) best) b =
    (es.flatMap fun election => election.candidates.getD []).foldl (fun best c =>
        if c.votes > best.votes then ⟨c.name, c.votes⟩ else best) b := by
  induction es generalizing b with
  | nil => rfl
  | cons e es ih => rw [List.foldl_cons, ih, List.flatMap_cons, List.foldl_append]

/-- C20 (counterexample): one election with one candidate who has no votes: the most
voted candidate is the placeholder although a candidate exists. -/
theorem mostVoted_zero_votes_counterexample :
    ([⟨"Guild President", some [⟨"Alice", 0⟩]⟩].flatMap
      fun election : ReportElection => election.candidates.getD []) = [⟨"Alice", 0⟩] ∧
    mostVotedCandidate (some [⟨"Guild President", some [⟨"Alice", 0⟩]⟩]) = ⟨"-", 0⟩ := by
  refine ⟨rfl, by decide⟩

theorem mostVotedCandidate_some (es : List ReportElection) :
    mostVotedCandidate (some es) =
      (es.flatMap fun election => election.candidates.getD []).foldl (fun best c =>
        if c.votes > best.votes then ⟨c.name, c.votes⟩ else best) ⟨"-", 0⟩ := by
  unfold mostVotedCandidate
  exact foldl_elections_eq es _

/-- C20 (amended): whenever some candidate of some election has a positive vote count,
the most voted candidate is the first candidate, in iteration order over all
candidates of all elections, whose vote count is maximal; it is the placeholder
`{ name: '-', votes: 0 }` exactly when no candidate has a positive vote count, in
particular when no election has any candidate or `elections` is missing. -/
theorem mostVoted_first_max (es : List ReportElection) :
    ((∃ c ∈ es.flatMap (fun election => election.candidates.getD []), 0 < c.votes) →
      ∃ i : ℕ, (es.flatMap fun election => election.candidates.getD [])[i]?
          = some (mostVotedCandidate (some es)) ∧
        (∀ c ∈ es.flatMap (fun election => election.candidates.getD []),
          c.votes ≤ (mostVotedCandidate (some es)).votes) ∧
        ∀ (j : ℕ) (c : Candidate), j < i →
          (es.flatMap fun election => election.candidates.getD [])[j]? = some c →
          c.votes < (mostVotedCandidate (some es)).votes) ∧
    (mostVotedCandidate (some es) = ⟨"-", 0⟩ ↔
      ∀ c ∈ es.flatMap (fun election => election.candidates.getD []), c.votes ≤ 0) ∧
    mostVotedCandidate none = ⟨"-", 0⟩ := by
  refine ⟨?_, ?_, rfl⟩
  · intro h
    obtain ⟨i, hi, -, hall, hbefore⟩ :=
      foldl_candidates_first_max (es.flatMap fun election => election.candidates.getD [])
        ⟨"-", 0⟩ h
    rw [mostVotedCandidate_some]
    exact ⟨i, hi, hall, hbefore⟩
  · constructor
    · intro hp
      by_contra hne
      push_neg at hne
      obtain ⟨i, -, hlt, -, -⟩ :=
        foldl_candidates_first_max (es.flatMap fun election => election.candidates.getD [])
          ⟨"-", 0⟩ hne
      rw [← mostVotedCandidate_some, hp] at hlt
      exact lt_irrefl _ hlt
    · intro hall
      rw [mostVotedCandidate_some]
      exact foldl_candidates_le _ ⟨"-", 0⟩ hall

/-- C20 (witness): three candidates in two elections, two of them tied at five votes. -/
theorem mostVoted_first_max_witness :
    (∃ c ∈ reportTie.flatMap (fun election => election.candidates.getD []), 0 < c.votes) ∧
    mostVotedCandidate (some reportTie) = ⟨"Bob", 5⟩ ∧
    ∃ i : ℕ, (reportTie.flatMap fun election => election.candidates.getD [])[i]?
      = some (mostVotedCandidate (some reportTie)) := by
  have hex : ∃ c ∈ reportTie.flatMap (fun election => election.candidates.getD []),
      0 < c.votes := ⟨⟨"Alice", 3⟩, by decide, by decide⟩
  obtain ⟨i, hi, -, -⟩ := (mostVoted_first_max reportTie).1 hex
  exact ⟨hex, by decide, i, hi⟩


/-! ## Status resolver: decision table, monotonicity, idempotence (C21 - C23) -/

/-- C21: for every election with both dates present and valid and every `now`, the
computed status is `upcoming` if `now < startDate`, otherwise `active` if
`now ≤ endDate`, otherwise `completed`; so it is always one of these three values,
each value is computed exactly under its own condition (the three conditions exclude
each other and cover every time), and when `startDate > endDate` it is never
`active`. -/
theorem status_decision_table (election : ClientElection) (now s e : ℤ)
    (hs : election.startDate = .value (some s)) (he : election.endDate = .value (some e)) :
    actualStatus now election =
      (if now < s then "upcoming" else if now ≤ e then "active" else "completed") ∧
    actualStatus now election ∈ ["upcoming", "active", "completed"] ∧
    (actualStatus now election = "upcoming" ↔ now < s) ∧
    (actualStatus now election = "active" ↔ s ≤ now ∧ now ≤ e) ∧
    (actualStatus now election = "completed" ↔ s ≤ now ∧ e < now) ∧
    (e < s → actualStatus now election ≠ "active") := by
  have key := actualStatus_of_valid election now s e hs he
  refine ⟨key, ?_, ?_, ?_, ?_, ?_⟩
  · rw [key]; split_ifs <;> simp
  · rw [key]
    split_ifs with h1 h2
    · simp [h1]
    · simp [h1]
    · simp [h1]
  · rw [key]
    split_ifs with h1 h2
    · constructor
      · intro h; exact absurd h (by decide)
      · intro h; omega
    · simp [not_lt.mp h1, h2]
    · constructor
      · intro h; exact absurd h (by decide)
      · intro h; omega
  · rw [key]
    split_ifs with h1 h2
    · constructor
      · intro h; exact absurd h (by decide)
      · intro h; omega
    · constructor
      · intro h; exact absurd h (by decide)
      · intro h; omega
    · simp [not_lt.mp h1, not_le.mp h2]
  · intro hes
    rw [key]
    split_ifs with h1 h2
    · decide
    · omega
    · decide

/-- C21 (witness): inverted dates, `startDate = 20`, `endDate = 10`, at time 15. -/
theorem status_decision_table_witness :
    actualStatus 15 ⟨7, "Guild elections", "Annual vote", "cancelled",
      .value (some 20), .value (some 10)⟩ = "upcoming" ∧
    actualStatus 15 ⟨7, "Guild elections", "Annual vote", "cancelled",
      .value (some 20), .value (some 10)⟩ ≠ "active" :=
  ⟨((status_decision_table ⟨7, "Guild elections", "Annual vote", "cancelled",
      .value (some 20), .value (some 10)⟩ 15 20 10 rfl rfl).2.2.1).mpr (by decide),
    (status_decision_table ⟨7, "Guild elections", "Annual vote", "cancelled",
      .value (some 20), .value (some 10)⟩ 15 20 10 rfl rfl).2.2.2.2.2 (by decide)⟩

/-- C22: for every election with both dates present and valid, in either order, and
all times `now1 ≤ now2`, the status computed at `now2` is not earlier in the order
`upcoming < active < completed` than the status computed at `now1`. -/
theorem status_monotone_in_time (election : ClientElection) (now1 now2 s e : ℤ)
    (hs : election.startDate = .value (some s)) (he : election.endDate = .value (some e))
    (h : now1 ≤ now2) :
    statusRank (actualStatus now1 election) ≤ statusRank (actualStatus now2 election) ∧
    statusRank "upcoming" < statusRank "active" ∧
    statusRank "active" < statusRank "completed" := by
  refine ⟨?_, by decide, by decide⟩
  rw [actualStatus_of_valid election now1 s e hs he,
    actualStatus_of_valid election now2 s e hs he]
  split_ifs <;> first | decide | omega

/-- C22 (witness): dates 10 and 20, times 15 and 25. -/
theorem status_monotone_in_time_witness :
    (15 : ℤ) ≤ 25 ∧
    statusRank (actualStatus 15 ⟨7, "Guild elections", "Annual vote", "cancelled",
      .value (some 10), .value (some 20)⟩) ≤
    statusRank (actualStatus 25 ⟨7, "Guild elections", "Annual vote", "cancelled",
      .value (some 10), .value (some 20)⟩) :=
  ⟨by decide, (status_monotone_in_time _ 15 25 10 20 rfl rfl (by decide)).1⟩

/-- C23: resolving an already resolved election again at the same time (its status
replaced by the computed status, the dates unchanged) gives the same status, for every
stored status and every combination of present, absent or invalid dates. -/
theorem status_idempotent (election : ClientElection) (now : ℤ) :
    actualStatus now { election with status := actualStatus now election } =
      actualStatus now election := by
  unfold actualStatus
  simp only
  split_ifs <;> rfl


/-! ## Rounding is monotone -/

theorem roundHalfEven_mono {s t : ℚ} (h : s ≤ t) : roundHalfEven s ≤ roundHalfEven t := by
  have hf : ⌊s⌋ ≤ ⌊t⌋ := Int.floor_mono h
  rcases hf.lt_or_eq with hlt | heq
  · have h1 : roundHalfEven s ≤ ⌊s⌋ + 1 := by
      rcases roundHalfEven_cases s with ⟨hs, -⟩ | ⟨hs, -⟩ <;> omega
    have h2 : ⌊t⌋ ≤ roundHalfEven t := by
      rcases roundHalfEven_cases t with ⟨ht, -⟩ | ⟨ht, -⟩ <;> omega
    omega
  · unfold roundHalfEven
    simp only
    rw [← heq]
    have hd : s - ⌊s⌋ ≤ t - ⌊s⌋ := by linarith
    split_ifs <;> first | omega | linarith


/-- Rounding to binary64 is monotone on the non-negative rationals. -/
theorem fl_mono {x y : ℚ} (hx : 0 ≤ x) (hxy : x ≤ y) : fl x ≤ fl y := by
  rcases hx.eq_or_lt with h0 | hpos
  · rw [← h0, fl_zero]; exact fl_nonneg (le_trans hx hxy)
  have hy : 0 < y := lt_of_lt_of_le hpos hxy
  have hlog : Int.log 2 x ≤ Int.log 2 y := Int.log_mono_right hpos hxy
  rw [fl_of_pos hpos, fl_of_pos hy]
  obtain ⟨-, bx⟩ := scaled_bracket hpos
  obtain ⟨by1, -⟩ := scaled_bracket hy
  set ex := Int.log 2 x - 52 with hex
  set ey := Int.log 2 y - 52 with hey
  have px : (0 : ℚ) < 2 ^ ex := zpow_pos (by norm_num) ex
  have py : (0 : ℚ) < 2 ^ ey := zpow_pos (by norm_num) ey
  rcases hlog.lt_or_eq with hlt | heq
  · -- different binades
    have c52 : (2 : ℚ) ^ (52 : ℤ) = ((2 ^ 52 : ℤ) : ℚ) := by norm_cast
    have c53 : (2 : ℚ) ^ (53 : ℤ) = ((2 ^ 53 : ℤ) : ℚ) := by norm_cast
    have h1 : roundHalfEven (x / 2 ^ ex) ≤ 2 ^ 53 := by
      apply roundHalfEven_le_of_le
      rw [div_le_iff₀ px, ← c53]; exact bx.le
    have h2 : (2 ^ 52 : ℤ) ≤ roundHalfEven (y / 2 ^ ey) := by
      apply le_roundHalfEven_of_le
      rw [le_div_iff₀ py, ← c52]; exact by1
    have h1q : (roundHalfEven (x / 2 ^ ex) : ℚ) ≤ 2 ^ 53 := by exact_mod_cast h1
    have h2q : (2 : ℚ) ^ 52 ≤ roundHalfEven (y / 2 ^ ey) := by exact_mod_cast h2
    have hexy : ex + 1 ≤ ey := by omega
    have hpow : (2 : ℚ) ^ (ex + 1) ≤ 2 ^ ey := zpow_le_zpow_right₀ (by norm_num) hexy
    have hpow2 : (2 : ℚ) ^ (ex + 1) = 2 ^ ex * 2 := by
      rw [zpow_add₀ (by norm_num)]; norm_num
    calc (roundHalfEven (x / 2 ^ ex) : ℚ) * 2 ^ ex ≤ 2 ^ 53 * 2 ^ ex :=
          mul_le_mul_of_nonneg_right h1q px.le
      _ = 2 ^ 52 * (2 ^ ex * 2) := by ring
      _ ≤ 2 ^ 52 * 2 ^ ey := by rw [← hpow2]; exact mul_le_mul_of_nonneg_left hpow (by positivity)
      _ ≤ (roundHalfEven (y / 2 ^ ey) : ℚ) * 2 ^ ey := mul_le_mul_of_nonneg_right h2q py.le
  · -- same binade
    have hee : ex = ey := by omega
    rw [← hee]
    have : roundHalfEven (x / 2 ^ ex) ≤ roundHalfEven (y / 2 ^ ex) :=
      roundHalfEven_mono (div_le_div_of_nonneg_right hxy px.le)
    have : (roundHalfEven (x / 2 ^ ex) : ℚ) ≤ roundHalfEven (y / 2 ^ ex) := by exact_mod_cast this
    exact mul_le_mul_of_nonneg_right this px.le

/-- The percentage expression is monotone in the count. -/
theorem percentOf_mono (v w u : ℕ) (h : v ≤ w) : percentOf v u ≤ percentOf w u := by
  unfold percentOf
  by_cases hu : u = 0
  · simp [hu]
  · rw [if_pos hu, if_pos hu]
    unfold mathRound jsMul jsDiv
    have hu' : (0 : ℚ) < u := by exact_mod_cast Nat.pos_of_ne_zero hu
    have hvw : (v : ℚ) / u ≤ (w : ℚ) / u :=
      div_le_div_of_nonneg_right (by exact_mod_cast h) hu'.le
    have h1 : fl ((v : ℚ) / u) ≤ fl ((w : ℚ) / u) := fl_mono (by positivity) hvw
    have h0 : 0 ≤ fl ((v : ℚ) / u) := fl_nonneg (by positivity)
    have h2 : fl (fl ((v : ℚ) / u) * 100) ≤ fl (fl ((w : ℚ) / u) * 100) :=
      fl_mono (by positivity) (by linarith)
    exact Int.floor_mono (by linarith)

theorem percentOf_self (u : ℕ) (hu : 0 < u) : percentOf u u = 100 := by
  have h1 : fl (1 : ℚ) = 1 := by
    have := fl_eq_of_bracket (x := (1 : ℚ)) (-52) 4503599627370496
      (by norm_num [zpow_neg]) (by norm_num [zpow_neg]) (by norm_num [zpow_neg, abs_lt])
    rw [this]; norm_num [zpow_neg]
  have h2 : fl (100 : ℚ) = 100 := by
    have := fl_eq_of_bracket (x := (100 : ℚ)) (-46) 7036874417766400
      (by norm_num [zpow_neg]) (by norm_num [zpow_neg]) (by norm_num [zpow_neg, abs_lt])
    rw [this]; norm_num [zpow_neg]
  unfold percentOf mathRound jsMul jsDiv
  have hu' : (u : ℚ) ≠ 0 := by exact_mod_cast hu.ne'
  rw [if_pos hu.ne', div_self hu', h1, one_mul, h2, Int.floor_eq_iff]
  norm_num

theorem percentOf_ge_hundred (v u : ℕ) (hu : 0 < u) (h : u ≤ v) : 100 ≤ percentOf v u := by
  rw [← percentOf_self u hu]; exact percentOf_mono u v u h

theorem percentOf_202_201 : percentOf 202 201 = 100 := by
  rw [percentOf_eq_floor 202 201 (by norm_num) (by norm_num) (by decide), Int.floor_eq_iff]
  norm_num


/-! ## Relations between the counts -/

/-- With at most one vote per (user, election) pair the votes of one election come
from distinct users. -/
theorem votesFor_le_voters (db : Db)
    (h : (db.votes.map fun v => (v.user, v.election)).Nodup) (id : ObjectId) :
    db.votesFor id ≤ db.voters.length := by
  have hsub : List.Sublist
      ((db.votes.filter fun v => v.election = id).map fun v => (v.user, v.election))
      (db.votes.map fun v => (v.user, v.election)) := List.Sublist.map _ (List.filter_sublist _)
  have hnd : ((db.votes.filter fun v => v.election = id).map
      fun v => (v.user, v.election)).Nodup := List.Nodup.sublist hsub h
  have hnd2 : (((db.votes.filter fun v => v.election = id).map
      fun v => (v.user, v.election)).map Prod.fst).Nodup := by
    apply List.Nodup.map_on _ hnd
    intro x hx y hy hxy
    simp only [List.mem_map, List.mem_filter, decide_eq_true_eq] at hx hy
    obtain ⟨v, ⟨-, hv⟩, rfl⟩ := hx
    obtain ⟨w, ⟨-, hw⟩, rfl⟩ := hy
    simp only at hxy
    rw [Prod.mk.injEq]
    exact ⟨hxy, by rw [hv, hw]⟩
  rw [List.map_map] at hnd2
  have hlen : db.votesFor id = ((db.votes.filter fun v => v.election = id).map
      ((Prod.fst : ObjectId × ObjectId → ObjectId) ∘ fun v => (v.user, v.election))).length := by
    rw [List.length_map]; rfl
  rw [hlen, ← List.toFinset_card_of_nodup hnd2, voters_length]
  apply Finset.card_le_card
  intro a ha
  simp only [List.mem_toFinset, List.mem_map, List.mem_filter, Function.comp] at ha ⊢
  obtain ⟨v, ⟨hv, -⟩, rfl⟩ := ha
  exact ⟨v, hv, rfl⟩

theorem voters_le_votes (db : Db) : db.voters.length ≤ db.votes.length := by
  have h := (List.dedup_sublist (db.votes.map fun v => v.user)).length_le
  rw [List.length_map] at h
  exact h

theorem countP_or_of_disjoint {α : Type} (p q : α → Bool) (l : List α)
    (h : ∀ a ∈ l, ¬ (p a = true ∧ q a = true)) :
    l.countP (fun a => p a || q a) = l.countP p + l.countP q := by
  induction l with
  | nil => rfl
  | cons a l ih =>
    have ha := h a (List.mem_cons_self _ _)
    have ih2 := ih fun b hb => h b (List.mem_cons_of_mem _ hb)
    simp only [List.countP_cons, ih2]
    cases hp : p a <;> cases hq : q a <;> simp_all <;> omega

/-- Summed over distinct election ids, the per-election counts count the votes that
reference one of these ids. -/
theorem sum_votesFor_eq_countP (db : Db) (ids : List ObjectId) (h : ids.Nodup) :
    (ids.map fun id => db.votesFor id).sum = db.votes.countP fun v => decide (v.election ∈ ids) := by
  induction ids with
  | nil => simp
  | cons id ids ih =>
    obtain ⟨hnot, hnd⟩ := List.nodup_cons.mp h
    rw [List.map_cons, List.sum_cons, ih hnd, votesFor_eq_countP]
    rw [← countP_or_of_disjoint]
    · congr 1
      funext v
      simp [List.mem_cons]
    · intro v _ hv
      simp only [decide_eq_true_eq] at hv
      exact hnot (hv.1 ▸ hv.2)

theorem votesSum_summaryBody (n m u voted : ℕ) (c : ObjectId → ℕ) (es : List Election) :
    (summaryBody n m u voted (es.map fun E => electionEntry u (c E._id) E)).votesSum =
      (((es.map fun E => E._id).map c).sum : ℕ) := by
  rw [JsVal.votesSum, electionEntries_summaryBody]
  induction es with
  | nil => simp
  | cons E es ih =>
    simp only [List.map_cons, List.sum_cons, Nat.cast_add]
    rw [← ih]
    simp [electionEntry, JsVal.numField, JsVal.get, JsVal.asNum, List.find?]


theorem db202of201_counts : db202of201.voters.length = 202 ∧ db202of201.users.length = 201 := by
  constructor
  · have h : (db202of201.votes.map fun v => v.user) = List.range 202 := by
      simp [db202of201, List.map_map, Function.comp_def]
    rw [Db.voters, h, (List.nodup_range 202).dedup, List.length_range]
  · simp [db202of201]

/-! ## Report aggregator: relations between the counts (C24 - C26) -/

/-- C24: in every summary `voted ≤ totalVotes`; and if the votes collection has at most
one vote per (user, election) pair, then for every election the `votes` of its entry are
at most `voted` and its `turnout` is at most `voterTurnout`, for every number of
users. -/
theorem votes_le_voted_le_totalVotes (db : Db) :
    ∃ (body : JsVal) (voted voterTurnout totalVotes : ℤ),
      getReportSummary db.toStore Res.fresh = ⟨200, [(200, body)]⟩ ∧
      body.numField "voted" = some voted ∧
      body.numField "voterTurnout" = some voterTurnout ∧
      body.numField "totalVotes" = some totalVotes ∧
      voted ≤ totalVotes ∧
      ((db.votes.map fun v => (v.user, v.election)).Nodup →
        ∀ i, i < db.elections.length →
          ∃ votes turnout : ℤ, body.votesAt i = some votes ∧ body.turnoutAt i = some turnout ∧
            votes ≤ voted ∧ turnout ≤ voterTurnout) := by
  obtain ⟨-, h2, -, h4, h5, -⟩ := numField_summaryBody db.elections.length db.votes.length
    db.users.length db.voters.length
    (db.elections.map fun E => electionEntry db.users.length (db.votesFor E._id) E)
  refine ⟨_, _, _, _, getReportSummary_toStore db, h5, h4, h2, ?_, ?_⟩
  · exact_mod_cast voters_le_votes db
  · intro hnd i hi
    have hle := votesFor_le_voters db hnd (db.elections[i])._id
    refine ⟨(db.votesFor (db.elections[i])._id : ℤ),
      percentOf (db.votesFor (db.elections[i])._id) db.users.length, ?_, ?_, ?_, ?_⟩
    · rw [votesAt_summaryBody, List.getElem?_eq_getElem hi]; rfl
    · rw [turnoutAt_summaryBody, List.getElem?_eq_getElem hi]; rfl
    · exact_mod_cast hle
    · exact percentOf_mono _ _ _ hle

/-- C24 (witness): ten votes of ten distinct users, second election. -/
theorem votes_le_voted_le_totalVotes_witness :
    (db3and7.votes.map fun v => (v.user, v.election)).Nodup ∧
    ∃ (body : JsVal) (voted voterTurnout : ℤ),
      getReportSummary db3and7.toStore Res.fresh = ⟨200, [(200, body)]⟩ ∧
      body.numField "voted" = some voted ∧
      body.numField "voterTurnout" = some voterTurnout ∧
      ∃ votes turnout : ℤ, body.votesAt 1 = some votes ∧ body.turnoutAt 1 = some turnout ∧
        votes ≤ voted ∧ turnout ≤ voterTurnout := by
  have hnd : (db3and7.votes.map fun v => (v.user, v.election)).Nodup := by decide
  obtain ⟨body, voted, voterTurnout, totalVotes, h1, h2, h3, -, -, h6⟩ :=
    votes_le_voted_le_totalVotes db3and7
  exact ⟨hnd, body, voted, voterTurnout, h1, h2, h3, h6 hnd 1 (by decide)⟩

/-- C25 (counterexample): votes of two users and an empty users collection give
`voterTurnout = 0`; 202 distinct voters and 201 users give `voterTurnout = 100`
(`100 * 202 / 201` is about 100.5 and rounds to 100): in both stores the votes reference
more distinct users than there are users, and `voterTurnout` does not exceed 100. -/
theorem voterTurnout_not_above_hundred_counterexample :
    dbNoUsers.users.length < ((dbNoUsers.votes.map fun v => v.user).toFinset).card ∧
    (getReportSummary dbNoUsers.toStore Res.fresh).body.bind (JsVal.numField "voterTurnout")
      = some 0 ∧
    db202of201.users.length < ((db202of201.votes.map fun v => v.user).toFinset).card ∧
    (getReportSummary db202of201.toStore Res.fresh).body.bind (JsVal.numField "voterTurnout")
      = some 100 := by
  obtain ⟨hv, hu⟩ := db202of201_counts
  refine ⟨by decide, ?_, ?_, ?_⟩
  · rw [body_toStore, Option.some_bind, (numField_summaryBody _ _ _ _ _).2.2.2.1]
    rfl
  · rw [← voters_length, hv, hu]; norm_num
  · rw [body_toStore, Option.some_bind, (numField_summaryBody _ _ _ _ _).2.2.2.1, hv, hu,
      percentOf_202_201]

/-- C25 (amended): `notVoted` is non-negative if and only if `voted ≤ totalUsers`; when
the votes reference more distinct users than the users collection holds, the request
still succeeds, `notVoted` is negative, and `voterTurnout` is at least 100 when
`totalUsers > 0` and 0 when `totalUsers = 0`. -/
theorem notVoted_sign (db : Db) :
    ∃ (body : JsVal) (voted notVoted voterTurnout : ℤ),
      getReportSummary db.toStore Res.fresh = ⟨200, [(200, body)]⟩ ∧
      body.numField "voted" = some voted ∧
      body.numField "notVoted" = some notVoted ∧
      body.numField "voterTurnout" = some voterTurnout ∧
      voted = ((db.votes.map fun v => v.user).toFinset).card ∧
      (0 ≤ notVoted ↔ voted ≤ db.users.length) ∧
      (db.users.length < ((db.votes.map fun v => v.user).toFinset).card →
        notVoted < 0 ∧ (0 < db.users.length → 100 ≤ voterTurnout) ∧
        (db.users.length = 0 → voterTurnout = 0)) := by
  obtain ⟨-, -, -, h4, h5, h6⟩ := numField_summaryBody db.elections.length db.votes.length
    db.users.length db.voters.length
    (db.elections.map fun E => electionEntry db.users.length (db.votesFor E._id) E)
  refine ⟨_, _, _, _, getReportSummary_toStore db, h5, h6, h4, ?_, ?_, ?_⟩
  · rw [voters_length]
  · constructor <;> intro h <;> omega
  · intro hlt
    rw [← voters_length] at hlt
    refine ⟨by omega, fun hu => percentOf_ge_hundred _ _ hu hlt.le, fun h0 => ?_⟩
    rw [h0]; exact percentOf_zero_users _

/-- C25 (witness): votes of two users, no users. -/
theorem notVoted_sign_witness :
    dbNoUsers.users.length < ((dbNoUsers.votes.map fun v => v.user).toFinset).card ∧
    dbNoUsers.users.length = 0 ∧
    ∃ (body : JsVal) (notVoted voterTurnout : ℤ),
      getReportSummary dbNoUsers.toStore Res.fresh = ⟨200, [(200, body)]⟩ ∧
      body.numField "notVoted" = some notVoted ∧
      body.numField "voterTurnout" = some voterTurnout ∧
      notVoted < 0 ∧ voterTurnout = 0 := by
  have hlt : dbNoUsers.users.length < ((dbNoUsers.votes.map fun v => v.user).toFinset).card := by
    decide
  obtain ⟨body, voted, notVoted, voterTurnout, h1, -, h3, h4, -, -, h7⟩ := notVoted_sign dbNoUsers
  exact ⟨hlt, rfl, body, notVoted, voterTurnout, h1, h3, h4, (h7 hlt).1, (h7 hlt).2.2 rfl⟩

/-- C26: when the listed elections have pairwise distinct `_id`, the sum of the `votes`
of the election entries is at most `totalVotes`, with equality if and only if every vote
record references one of the listed elections. -/
theorem votes_sum_le_totalVotes (db : Db) (hd : (db.elections.map fun E => E._id).Nodup) :
    ∃ (body : JsVal) (totalVotes : ℤ),
      getReportSummary db.toStore Res.fresh = ⟨200, [(200, body)]⟩ ∧
      body.numField "totalVotes" = some totalVotes ∧
      body.votesSum ≤ totalVotes ∧
      (body.votesSum = totalVotes ↔ ∀ v ∈ db.votes, ∃ E ∈ db.elections, v.election = E._id) := by
  have hsum := sum_votesFor_eq_countP db (db.elections.map fun E => E._id) hd
  have hbody := votesSum_summaryBody db.elections.length db.votes.length db.users.length
    db.voters.length db.votesFor db.elections
  rw [hsum] at hbody
  refine ⟨_, _, getReportSummary_toStore db, (numField_summaryBody _ _ _ _ _).2.1, ?_, ?_⟩
  · rw [hbody]; exact_mod_cast List.countP_le_length _
  · rw [hbody, Nat.cast_inj, List.countP_eq_length]
    simp only [decide_eq_true_eq, List.mem_map]
    constructor
    · intro h v hv
      obtain ⟨E, hE, hEv⟩ := h v hv
      exact ⟨E, hE, hEv.symm⟩
    · intro h v hv
      obtain ⟨E, hE, hEv⟩ := h v hv
      exact ⟨E, hE, hEv.symm⟩

/-- C26 (witness): the store with two elections and ten votes. -/
theorem votes_sum_le_totalVotes_witness :
    (db3and7.elections.map fun E => E._id).Nodup ∧
    ∃ (body : JsVal) (totalVotes : ℤ),
      getReportSummary db3and7.toStore Res.fresh = ⟨200, [(200, body)]⟩ ∧
      body.numField "totalVotes" = some totalVotes ∧
      body.votesSum ≤ totalVotes :=
  have hd : (db3and7.elections.map fun E => E._id).Nodup := by decide
  have ⟨body, totalVotes, h1, h2, h3, _⟩ := votes_sum_le_totalVotes db3and7 hd
  ⟨hd, body, totalVotes, h1, h2, h3⟩


end Kyambogo
